import Mathlib

/-!
# Verification of the NFL data transformation pipeline

Shallow embedding of `src/nfl-data-pipeline/src/etl/transform.py`
(class `NFLDataTransformer`): the entity cleaner `clean_teams_data`,
the event cleaner `clean_games_data`, the feature engine
`create_game_features` and the team aggregator
`create_team_aggregations`, together with theorems settling the
spec claims about them.

Modelling conventions:
* A data-frame cell is an `RVal`: a numeric value, a string that the
  pandas numeric parser accepts (kept distinct from the number itself,
  because object-level equality — used by `drop_duplicates` and
  `groupby` — distinguishes `1` from `"1"`), a non-numeric string, or
  a missing value (`NaN`/`None`), written `null`.
* Pandas `NaN` comparison semantics are explicit: any ordered or
  equality comparison involving a missing value is `false`.
* A table is a list of rows (pandas keeps row order); `drop_duplicates`
  keeps the first occurrence, and multi-column `sort_values` is the
  stable lexicographic sort (pandas uses `lexsort` whenever more than
  one key column is given).
* Machine floats are modelled by `ℚ`; all quantities produced by the
  pipeline (scores, counts, means of finitely many rationals) are
  exactly representable, so no rounding behaviour is lost.
-/

/-- A single data-frame cell. `numStr q` is a string cell that
`pd.to_numeric` parses to `q` (object equality still distinguishes it
from the plain number `q`, exactly as in pandas). `null` is `NaN`/`None`. -/
inductive RVal where
  | num (q : ℚ)
  | numStr (q : ℚ)
  | str (s : String)
  | null
deriving DecidableEq, Repr

/-- `pd.to_numeric(·, errors='coerce')` on one cell: numbers and numeric
strings become numbers, everything else becomes `NaN` (`none`). -/
def RVal.toNumeric : RVal → Option ℚ
  | .num q => some q
  | .numStr q => some q
  | .str _ => none
  | .null => none

/-- Numeric coercion of a cell, keeping `NaN` for unparsable cells
(`pd.to_numeric(col, errors='coerce')`). -/
def RVal.coerceNum (v : RVal) : RVal :=
  match v.toNumeric with
  | some q => .num q
  | none => .null

/-- Numeric coercion followed by `fillna(0)`, as applied to the score
columns of the event cleaner. -/
def RVal.coerceFill0 (v : RVal) : RVal :=
  match v.toNumeric with
  | some q => .num q
  | none => .num 0

/-- Pandas `==` on two cells of a numeric column: true only when both
are numbers and equal; in particular `NaN == NaN` is false. -/
def RVal.eqNum : RVal → RVal → Bool
  | .num x, .num y => x == y
  | _, _ => false

/-- Pandas `>` on two cells of a numeric column; any comparison
involving `NaN` is false. -/
def RVal.gtNum : RVal → RVal → Bool
  | .num x, .num y => decide (y < x)
  | _, _ => false

/-- Elementwise subtraction on numeric columns (`NaN` propagates). -/
def RVal.subNum : RVal → RVal → RVal
  | .num x, .num y => .num (x - y)
  | _, _ => .null

/-- Elementwise addition on numeric columns (`NaN` propagates). -/
def RVal.addNum : RVal → RVal → RVal
  | .num x, .num y => .num (x + y)
  | _, _ => .null

/-- Elementwise absolute value (`NaN` propagates). -/
def RVal.absNum : RVal → RVal
  | .num x => .num (if x < 0 then -x else x)
  | v => v

/-- A date cell: either a date `pd.to_datetime` parses (abstracted as a
day number counted from 1970-01-01) or an unparsable cell. -/
inductive DVal where
  | valid (d : ℤ)
  | invalid (s : String)
deriving DecidableEq, Repr

/-- `pd.to_datetime(·, errors='coerce')` on one cell. -/
def DVal.parse : DVal → Option ℤ
  | .valid d => some d
  | .invalid _ => none

/-- Worker for `dedupBy`: `seen` holds the key values already emitted. -/
def dedupByAux {α κ : Type} (k : α → κ) [DecidableEq κ] : List κ → List α → List α
  | _, [] => []
  | seen, x :: xs =>
    if k x ∈ seen then dedupByAux k seen xs
    else x :: dedupByAux k (k x :: seen) xs

/-- `DataFrame.drop_duplicates(subset=[key], keep='first')`: keep the
first row carrying each key value, in input order. -/
def dedupBy {α κ : Type} (k : α → κ) [DecidableEq κ] (l : List α) : List α :=
  dedupByAux k [] l

/-- One row of the event (games) table, over the canonical column names
produced by the renaming map of `clean_games_data` (the rename map sends
`GameID ↦ game_id`, `Season ↦ season`, …; since it only changes the
labels, rows are modelled over the canonical labels directly).  Columns
not touched by any transformation or claim (`season_type`, `datetime`,
`quarter`, `time_remaining`, weather fields) are carried by the real
table unchanged and are omitted here. -/
structure GameRow where
  game_id : RVal
  season : RVal
  week : RVal
  date : DVal
  home_team_id : RVal
  away_team_id : RVal
  home_score : RVal
  away_score : RVal
  status : String
deriving DecidableEq, Repr

/-- Score handling of the event cleaner: `pd.to_numeric(col,
errors='coerce').fillna(0)` on `home_score` and `away_score`. -/
def coerceScoresRow (r : GameRow) : GameRow :=
  { r with home_score := r.home_score.coerceFill0,
           away_score := r.away_score.coerceFill0 }

/-- Date handling of the event cleaner: parse the date, dropping the row
(`dropna(subset=['date'])`) when it does not parse. -/
def parseDateRow (r : GameRow) : Option GameRow :=
  (r.date.parse).map fun d => { r with date := .valid d }

/-- Numeric-column coercion of the event cleaner over
`['season', 'week', 'home_team_id', 'away_team_id']`. -/
def coerceNumsRow (r : GameRow) : GameRow :=
  { r with season := r.season.coerceNum,
           week := r.week.coerceNum,
           home_team_id := r.home_team_id.coerceNum,
           away_team_id := r.away_team_id.coerceNum }

/-- The self-play business rule: `home_team_id == away_team_id` under
pandas comparison semantics (false when either side is `NaN`). -/
def sameTeamRow (r : GameRow) : Bool :=
  RVal.eqNum r.home_team_id r.away_team_id

/-- The week business rule: `(week < 1) | (week > 22)` under pandas
comparison semantics (false — i.e. the row is kept — when week is `NaN`). -/
def invalidWeekRow (r : GameRow) : Bool :=
  match r.week with
  | .num q => decide (q < 1) || decide (22 < q)
  | _ => false

/-- `clean_games_data`: the event cleaner.  Stage order as in the
source: empty check, column renaming (absorbed into the canonical row
type), dedup by `game_id`, score coercion with `fillna(0)`, date
parsing with row drop, numeric coercion of season/week/team ids, the
self-play filter, the week-range filter. -/
def clean_games_data (l : List GameRow) : List GameRow :=
  if l.isEmpty then []
  else
    let l1 := dedupBy (fun r => r.game_id) l
    let l2 := l1.map coerceScoresRow
    let l3 := l2.filterMap parseDateRow
    let l4 := l3.map coerceNumsRow
    let l5 := l4.filter (fun r => !sameTeamRow r)
    l5.filter (fun r => !invalidWeekRow r)

/-- The per-row effect of the event cleaner after deduplication:
`clean_games_data` is `dedupBy` followed by `filterMap` of this step
(proved below as `clean_games_eq_filterMap`). -/
def cleanGameRowSteps (r : GameRow) : Option GameRow :=
  match parseDateRow (coerceScoresRow r) with
  | none => none
  | some r2 =>
    let r3 := coerceNumsRow r2
    if sameTeamRow r3 then none
    else if invalidWeekRow r3 then none
    else some r3

/-- The character class stripped by python's `str.strip()`. -/
def trimChars (l : List Char) : List Char :=
  ((l.dropWhile Char.isWhitespace).reverse.dropWhile Char.isWhitespace).reverse

/-- Python `str.strip()`: remove leading and trailing whitespace. -/
def strTrim (s : String) : String := ⟨trimChars s.data⟩

/-- `col.astype(str).str.strip()` on one cell: a number renders as its
digit string (no surrounding whitespace, still numerically parsable), a
numeric string stays numerically parsable (the parser ignores
surrounding whitespace, so stripping does not change its parse), a plain
string is stripped, and `NaN` renders as the string `"nan"` (which
`pd.to_numeric` still coerces to `NaN`, matching `toNumeric = none`). -/
def RVal.toStrTrim : RVal → RVal
  | .num q => .numStr q
  | .numStr q => .numStr q
  | .str s => .str (strTrim s)
  | .null => .str "nan"

/-- One row of the teams table.  Raw column labels `TeamID` and `Key`
and their canonical targets `team_id` and `abbreviation` are separate
fields because the rename map moves data between them; `Name`/`City`/
`Conference`/`Division` only change case, so one field serves both.
Rename-only columns with no transformation and no claim
(`PrimaryColor`, `SecondaryColor`, `WikipediaLogoUrl`, `Founded`,
`HeadCoach`) are omitted.  A field's content is meaningful only when
the table-level presence flag for its column is set. -/
structure TeamRow where
  teamID : RVal
  team_id : RVal
  key : RVal
  abbreviation : RVal
  name : RVal
  city : RVal
  conference : RVal
  division : RVal
deriving DecidableEq, Repr

/-- The teams table: per-column presence flags (pandas checks
`col in df.columns` before every transformation) plus the rows. -/
structure TeamsTable where
  hasTeamID : Bool
  hasTeam_id : Bool
  hasKey : Bool
  hasAbbreviation : Bool
  hasName : Bool
  hasCity : Bool
  hasConference : Bool
  hasDivision : Bool
  rows : List TeamRow
deriving DecidableEq, Repr

/-- The empty data frame `pd.DataFrame()`: no columns, no rows. -/
def emptyTeamsTable : TeamsTable :=
  ⟨false, false, false, false, false, false, false, false, []⟩

/-- The identifier-column priority scan of `clean_teams_data`:
the first of `['TeamID', 'team_id', 'Key']` present in the table. -/
def teamIdKey (t : TeamsTable) : Option (TeamRow → RVal) :=
  if t.hasTeamID then some (fun r => r.teamID)
  else if t.hasTeam_id then some (fun r => r.team_id)
  else if t.hasKey then some (fun r => r.key)
  else none

/-- The dedup stage of `clean_teams_data`: drop duplicates of the
priority identifier column when one exists, otherwise leave the rows
untouched (the source has no `else` branch). -/
def dedupTeams (t : TeamsTable) : List TeamRow :=
  match teamIdKey t with
  | some k => dedupBy k t.rows
  | none => t.rows

/-- The rename stage on one row: `TeamID ↦ team_id`, `Key ↦
abbreviation` (performed only when the raw column exists; the vacated
raw field is cleared).  The source would produce a duplicate column
label if a table carried both the raw and the canonical name at once;
no verified property concerns that degenerate input, and the model lets
the raw column win there. -/
def renameTeamRow (hTID hKey : Bool) (r : TeamRow) : TeamRow :=
  { r with team_id := if hTID then r.teamID else r.team_id,
           teamID := if hTID then .null else r.teamID,
           abbreviation := if hKey then r.key else r.abbreviation,
           key := if hKey then .null else r.key }

/-- `fillna('Unknown')` on one cell. -/
def fillUnknown (v : RVal) : RVal :=
  if v = .null then .str "Unknown" else v

/-- The missing-value stage on one row: fill `city`, `conference`,
`division` with `'Unknown'` when the column exists. -/
def fillTeamRow (hCity hConf hDiv : Bool) (r : TeamRow) : TeamRow :=
  { r with city := if hCity then fillUnknown r.city else r.city,
           conference := if hConf then fillUnknown r.conference else r.conference,
           division := if hDiv then fillUnknown r.division else r.division }

/-- The text-standardisation stage on one row: `astype(str).str.strip()`
over the text columns `['name', 'city', 'abbreviation', 'conference',
'division']` that exist. -/
def stripTeamRow (hName hCity hAbbr hConf hDiv : Bool) (r : TeamRow) : TeamRow :=
  { r with name := if hName then r.name.toStrTrim else r.name,
           city := if hCity then r.city.toStrTrim else r.city,
           abbreviation := if hAbbr then r.abbreviation.toStrTrim else r.abbreviation,
           conference := if hConf then r.conference.toStrTrim else r.conference,
           division := if hDiv then r.division.toStrTrim else r.division }

/-- `conference.isin(['AFC', 'NFC', 'Unknown'])` on one cell. -/
def confValid (v : RVal) : Bool :=
  v == .str "AFC" || v == .str "NFC" || v == .str "Unknown"

/-- The conference-validation stage on one row: any value outside the
enum (plus `'Unknown'`) is coerced to `'Unknown'`. -/
def validateConfRow (hConf : Bool) (r : TeamRow) : TeamRow :=
  if hConf then
    { r with conference := if confValid r.conference then r.conference else .str "Unknown" }
  else r

/-- `numpy` float-to-int cast (`astype(int)`): truncation toward zero. -/
def ratTruncToInt (q : ℚ) : ℤ := Int.tdiv q.num (q.den : ℤ)

/-- The identifier-coercion stage on one row: `pd.to_numeric(team_id,
errors='coerce')`, `dropna(subset=['team_id'])`, `astype(int)`. -/
def coerceTeamIdRow (r : TeamRow) : Option TeamRow :=
  match r.team_id.toNumeric with
  | some q => some { r with team_id := .num ((ratTruncToInt q : ℤ) : ℚ) }
  | none => none

/-- The per-row effect of `clean_teams_data` after deduplication, for a
table with the given presence flags (`hasTeam_id` and `hasAbbreviation`
taken after renaming). -/
def cleanTeamRowSteps (hTID hKey hAbbr hName hCity hConf hDiv hTid' : Bool)
    (r : TeamRow) : Option TeamRow :=
  let r1 := renameTeamRow hTID hKey r
  let r2 := fillTeamRow hCity hConf hDiv r1
  let r3 := stripTeamRow hName hCity hAbbr hConf hDiv r2
  let r4 := validateConfRow hConf r3
  if hTid' then coerceTeamIdRow r4 else some r4

/-- `clean_teams_data`: the entity cleaner.  Stage order as in the
source: empty check, dedup by the priority identifier column, column
renaming, missing-value fills, text standardisation, conference
validation, identifier coercion to integer with row drops. -/
def clean_teams_data (t : TeamsTable) : TeamsTable :=
  if t.rows.isEmpty then emptyTeamsTable
  else
    let hTid' := t.hasTeamID || t.hasTeam_id
    let hAbbr' := t.hasKey || t.hasAbbreviation
    let rows' := (dedupTeams t).filterMap
      (cleanTeamRowSteps t.hasTeamID t.hasKey hAbbr' t.hasName t.hasCity
        t.hasConference t.hasDivision hTid')
    { hasTeamID := false, hasTeam_id := hTid', hasKey := false,
      hasAbbreviation := hAbbr', hasName := t.hasName, hasCity := t.hasCity,
      hasConference := t.hasConference, hasDivision := t.hasDivision,
      rows := rows' }

/-- Pandas `dayofweek` (Monday = 0) of a day number counted from
1970-01-01, which was a Thursday (= 3). -/
def weekdayOf (d : ℤ) : ℤ := (d + 3) % 7

/-- `pd.cut(margin_of_victory, bins=[0, 3, 7, 14, inf],
include_lowest=True)`: intervals `[0,3]`, `(3,7]`, `(7,14]`, `(14,inf)`
(the lowest bound is inclusive because of `include_lowest`); values
outside every bin, and missing values, yield `NaN`. -/
def closenessCut (m : RVal) : Option String :=
  match m with
  | .num q =>
    if q < 0 then none
    else if q ≤ 3 then some "Very Close (1-3)"
    else if q ≤ 7 then some "Close (4-7)"
    else if q ≤ 14 then some "Moderate (8-14)"
    else some "Blowout (15+)"
  | _ => none

/-- `pd.cut(total_points, bins=[0, 35, 45, 55, inf],
include_lowest=True)` with the scoring-category labels. -/
def scoringCut (t : RVal) : Option String :=
  match t with
  | .num q =>
    if q < 0 then none
    else if q ≤ 35 then some "Low Scoring (≤35)"
    else if q ≤ 45 then some "Average (36-45)"
    else if q ≤ 55 then some "High (46-55)"
    else some "Very High (56+)"
  | _ => none

/-- A feature-enriched event row: the cleaned row plus every derived
column of `create_game_features`.  The calendar projections `year`,
`month` and `day_name` are further pure functions of the date cell not
consumed by any later stage or claim and are omitted. -/
structure FeatRow extends GameRow where
  point_differential : RVal
  winner_team_id : RVal
  margin_of_victory : RVal
  game_closeness : Option String
  is_completed : Bool
  day_of_week : RVal
  is_prime_time : Bool
  is_sunday : Bool
  total_points : RVal
  scoring_category : Option String
deriving DecidableEq, Repr

/-- The feature derivation for one row.  The winner is decided by
`np.where`: the home id when `home_score > away_score`, otherwise the
away id when `away_score > home_score`, otherwise the `None` sentinel
(modelled as the missing value).  On pipeline input the date cell is
always parsable (the cleaner dropped the others); the source would
raise inside `pd.to_datetime` otherwise, and the model gives the
temporal fields their missing values there. -/
def featRow (r : GameRow) : FeatRow :=
  let pd := r.home_score.subNum r.away_score
  let mov := pd.absNum
  let tp := r.home_score.addNum r.away_score
  { toGameRow := r
    point_differential := pd
    winner_team_id :=
      if r.home_score.gtNum r.away_score then r.home_team_id
      else if r.away_score.gtNum r.home_score then r.away_team_id
      else .null
    margin_of_victory := mov
    game_closeness := closenessCut mov
    is_completed := ["Final", "F", "Completed"].contains r.status
    day_of_week :=
      match r.date.parse with
      | some d => .num ((weekdayOf d : ℤ) : ℚ)
      | none => .null
    is_prime_time :=
      match r.date.parse with
      | some d => weekdayOf d == 0 || weekdayOf d == 3
      | none => false
    is_sunday :=
      match r.date.parse with
      | some d => weekdayOf d == 6
      | none => false
    total_points := tp
    scoring_category := scoringCut tp }

/-- `create_game_features`: the feature engine (empty input short-
circuits to the empty frame, otherwise a pure map over the rows). -/
def create_game_features (l : List GameRow) : List FeatRow :=
  if l.isEmpty then [] else l.map featRow

/-- The completed-games restriction of the aggregator:
`games_df[games_df['is_completed'] == True]`.  (The source's fallback
for a frame without the `is_completed` column is unreachable here: the
feature engine always produces that column for the event schema.) -/
def completedOf (l : List FeatRow) : List FeatRow :=
  l.filter (fun r => r.is_completed)

/-- A cell usable as a `groupby` key: a plain number.  After cleaning,
identifier columns hold only numbers and missing values, and `groupby`
drops missing keys. -/
def numOf : RVal → Option ℚ
  | .num q => some q
  | _ => none

/-- Ascending order on rationals as a boolean comparator. -/
def qLE (a b : ℚ) : Bool := decide (a ≤ b)

/-- Insert a key into an ascending list of keys. -/
def insertQ (x : ℚ) : List ℚ → List ℚ
  | [] => [x]
  | y :: ys => if x ≤ y then x :: y :: ys else y :: insertQ x ys

/-- Sort keys ascending.  The key lists being sorted are duplicate-free
(`dedupBy id` precedes every use), so the ascending result is the unique
sorted arrangement and the choice of algorithm is invisible. -/
def sortQ (l : List ℚ) : List ℚ := l.foldr insertQ []

/-- The distinct non-missing keys of a `groupby`, ascending (pandas
`groupby(..., sort=True)` default). -/
def groupKeys (f : FeatRow → RVal) (l : List FeatRow) : List ℚ :=
  sortQ (dedupBy id (l.filterMap (fun r => numOf (f r))))

/-- The rows of team `t`'s home group. -/
def homeGroup (l : List FeatRow) (t : ℚ) : List FeatRow :=
  l.filter (fun r => r.home_team_id == RVal.num t)

/-- The rows of team `t`'s away group. -/
def awayGroup (l : List FeatRow) (t : ℚ) : List FeatRow :=
  l.filter (fun r => r.away_team_id == RVal.num t)

/-- `agg({'game_id': 'count'})` within one group: pandas `count`
ignores missing cells. -/
def countNonNullGameId (g : List FeatRow) : ℕ :=
  (g.filter (fun r => r.game_id != RVal.null)).length

/-- `agg 'mean'` of a numeric column within one group: pandas skips
missing cells and yields `NaN` on an empty group. -/
def meanOfCol (f : FeatRow → RVal) (g : List FeatRow) : Option ℚ :=
  let xs := g.filterMap (fun r => numOf (f r))
  if xs.isEmpty then none else some (xs.sum / (xs.length : ℚ))

/-- `agg 'sum'` of a numeric column within one group (pandas sums the
non-missing cells; an all-missing group sums to 0). -/
def sumOfCol (f : FeatRow → RVal) (g : List FeatRow) : ℚ :=
  (g.filterMap (fun r => numOf (f r))).sum

/-- Home games played by team `t`: the `game_id` count of its home
group among completed games. -/
def homeGamesOf (c : List FeatRow) (t : ℚ) : ℕ :=
  countNonNullGameId (homeGroup c t)

/-- Home wins of team `t`: the size of its group in
`completed_games[home_score > away_score]` (merged back `how='left'`
with `fillna(0)`, which per key is exactly this count). -/
def homeWinsOf (c : List FeatRow) (t : ℚ) : ℕ :=
  ((homeGroup c t).filter (fun r => r.home_score.gtNum r.away_score)).length

/-- Away games played by team `t`. -/
def awayGamesOf (c : List FeatRow) (t : ℚ) : ℕ :=
  countNonNullGameId (awayGroup c t)

/-- Away wins of team `t`: its group size in
`completed_games[away_score > home_score]`. -/
def awayWinsOf (c : List FeatRow) (t : ℚ) : ℕ :=
  ((awayGroup c t).filter (fun r => r.away_score.gtNum r.home_score)).length

/-- The home-perspective aggregate row of one team (lines 306-324 of
the source).  The sample standard deviation `std_points_home` is
irrational in general and consumed by nothing downstream; omitted. -/
structure HomeStat where
  team_id : ℚ
  home_games : ℕ
  avg_points_scored_home : Option ℚ
  total_points_home : ℚ
  avg_points_allowed_home : Option ℚ
  avg_differential_home : Option ℚ
  home_wins : ℕ
deriving DecidableEq, Repr

/-- The away-perspective aggregate row of one team (lines 326-344);
`avg_differential_away` carries the sign flip `lambda x: -x.mean()`. -/
structure AwayStat where
  team_id : ℚ
  away_games : ℕ
  avg_points_scored_away : Option ℚ
  total_points_away : ℚ
  avg_points_allowed_away : Option ℚ
  avg_differential_away : Option ℚ
  away_wins : ℕ
deriving DecidableEq, Repr

/-- Build team `t`'s home-perspective aggregates from the completed
games `c`. -/
def mkHomeStat (c : List FeatRow) (t : ℚ) : HomeStat :=
  let g := homeGroup c t
  { team_id := t
    home_games := homeGamesOf c t
    avg_points_scored_home := meanOfCol (fun r => r.home_score) g
    total_points_home := sumOfCol (fun r => r.home_score) g
    avg_points_allowed_home := meanOfCol (fun r => r.away_score) g
    avg_differential_home := meanOfCol (fun r => r.point_differential) g
    home_wins := homeWinsOf c t }

/-- Build team `t`'s away-perspective aggregates from the completed
games `c`. -/
def mkAwayStat (c : List FeatRow) (t : ℚ) : AwayStat :=
  let g := awayGroup c t
  { team_id := t
    away_games := awayGamesOf c t
    avg_points_scored_away := meanOfCol (fun r => r.away_score) g
    total_points_away := sumOfCol (fun r => r.away_score) g
    avg_points_allowed_away := meanOfCol (fun r => r.home_score) g
    avg_differential_away := (meanOfCol (fun r => r.point_differential) g).map (fun x => -x)
    away_wins := awayWinsOf c t }

/-- The combined team record after the outer merge, `fillna(0)` and the
derived-metric block (lines 346-371).  All cells are rationals because
`fillna(0)` has removed every missing value. -/
structure TeamStat where
  team_id : ℚ
  home_games : ℚ
  avg_points_scored_home : ℚ
  total_points_home : ℚ
  avg_points_allowed_home : ℚ
  avg_differential_home : ℚ
  home_wins : ℚ
  away_games : ℚ
  avg_points_scored_away : ℚ
  total_points_away : ℚ
  avg_points_allowed_away : ℚ
  avg_differential_away : ℚ
  away_wins : ℚ
  total_games : ℚ
  total_wins : ℚ
  total_losses : ℚ
  win_percentage : ℚ
  avg_points_scored : ℚ
  avg_points_allowed : ℚ
  net_points : ℚ
  home_field_advantage : ℚ

/-- `fillna(0)` on one merged cell. -/
def fillQ : Option ℚ → ℚ
  | some q => q
  | none => 0

/-- Merge one key's home and away sides (`how='outer'`, missing side
`fillna(0)`) and compute the combined metrics of lines 350-371:
`total_games`, `total_wins`, `total_losses`, `win_percentage` with the
`replace(0, 1)` divisor guard, the weighted averages, `net_points` and
`home_field_advantage`. -/
def combineTeam (t : ℚ) (h : Option HomeStat) (a : Option AwayStat) : TeamStat :=
  let hg : ℚ := match h with | some s => (s.home_games : ℚ) | none => 0
  let asH : ℚ := match h with | some s => fillQ s.avg_points_scored_home | none => 0
  let tpH : ℚ := match h with | some s => s.total_points_home | none => 0
  let alH : ℚ := match h with | some s => fillQ s.avg_points_allowed_home | none => 0
  let adH : ℚ := match h with | some s => fillQ s.avg_differential_home | none => 0
  let hw : ℚ := match h with | some s => (s.home_wins : ℚ) | none => 0
  let ag : ℚ := match a with | some s => (s.away_games : ℚ) | none => 0
  let asA : ℚ := match a with | some s => fillQ s.avg_points_scored_away | none => 0
  let tpA : ℚ := match a with | some s => s.total_points_away | none => 0
  let alA : ℚ := match a with | some s => fillQ s.avg_points_allowed_away | none => 0
  let adA : ℚ := match a with | some s => fillQ s.avg_differential_away | none => 0
  let aw : ℚ := match a with | some s => (s.away_wins : ℚ) | none => 0
  let totalGames := hg + ag
  let totalWins := hw + aw
  let tgGuard := if totalGames = 0 then 1 else totalGames
  let aps := (asH * hg + asA * ag) / tgGuard
  let apl := (alH * hg + alA * ag) / tgGuard
  { team_id := t
    home_games := hg
    avg_points_scored_home := asH
    total_points_home := tpH
    avg_points_allowed_home := alH
    avg_differential_home := adH
    home_wins := hw
    away_games := ag
    avg_points_scored_away := asA
    total_points_away := tpA
    avg_points_allowed_away := alA
    avg_differential_away := adA
    away_wins := aw
    total_games := totalGames
    total_wins := totalWins
    total_losses := totalGames - totalWins
    win_percentage := totalWins / tgGuard
    avg_points_scored := aps
    avg_points_allowed := apl
    net_points := aps - apl
    home_field_advantage := adH - adA }

/-- The merged per-team table, one row per identifier appearing on
either side, in ascending identifier order (`merge(how='outer')` sorts
the union of the key values). -/
def buildTeamStats (c : List FeatRow) : List TeamStat :=
  let hkeys := groupKeys (fun r => r.home_team_id) c
  let akeys := groupKeys (fun r => r.away_team_id) c
  let allKeys := sortQ (dedupBy id (hkeys ++ akeys))
  allKeys.map (fun t =>
    combineTeam t
      (if hkeys.contains t then some (mkHomeStat c t) else none)
      (if akeys.contains t then some (mkAwayStat c t) else none))

/-- The ranking comparator: `win_percentage` descending, then
`net_points` descending. -/
def teamLE (a b : TeamStat) : Bool :=
  decide (b.win_percentage < a.win_percentage) ||
  (a.win_percentage == b.win_percentage && decide (b.net_points ≤ a.net_points))

/-- `sort_values(['win_percentage', 'net_points'],
ascending=[False, False])`: pandas performs a stable lexicographic sort
whenever several key columns are given; each row carries its original
position (the data-frame index) into the result. -/
def sortTeamStats (l : List TeamStat) : List (ℕ × TeamStat) :=
  List.mergeSort l.enum (fun x y => teamLE x.2 y.2)

/-- `power_ranking = range(1, len + 1)`: the 1-based position after the
stable sort. -/
def rankTeams (l : List TeamStat) : List (TeamStat × ℕ) :=
  (sortTeamStats l).enum.map (fun p => (p.2.2, p.1 + 1))

/-- `create_team_aggregations`: the team aggregator.  Empty input and
input without completed games both short-circuit to the empty frame. -/
def create_team_aggregations (l : List FeatRow) : List (TeamStat × ℕ) :=
  if l.isEmpty then []
  else
    let c := completedOf l
    if c.isEmpty then []
    else rankTeams (buildTeamStats c)

/-! ## Example tables used by concrete witnesses and counterexamples -/

/-- A well-formed completed game: week 5, home side 2 beats away side 3. -/
def exGame : GameRow :=
  { game_id := .num 1, season := .num 2024, week := .num 5, date := .valid 100,
    home_team_id := .num 2, away_team_id := .num 3,
    home_score := .num 24, away_score := .num 10, status := "Final" }

/-- A game whose `Week` cell does not parse as a number. -/
def exGameBadWeek : GameRow := { exGame with game_id := .num 2, week := .str "abc" }

/-- A game in week 25 (outside the valid range). -/
def exGameWeek25 : GameRow := { exGame with game_id := .num 3, week := .num 25 }

/-- A game where a team plays itself. -/
def exGameSelf : GameRow := { exGame with game_id := .num 4, away_team_id := .num 2 }

/-- A tie game between teams 2 and 3. -/
def exGameTie : GameRow := { exGame with game_id := .num 5, away_score := .num 24 }

/-- A completed game whose away identifier is missing: its away side is
dropped by every away grouping, so team 2 is the only aggregated team. -/
def exGameNoAway : GameRow := { exGame with game_id := .num 6, away_team_id := .null }

/-- A second raw event sharing `exGame`'s identifier (a duplicate). -/
def exGameDup : GameRow := { exGame with home_score := .num 99 }

/-- A teams row whose identifier cell is `v`. -/
def exTeamRow (v : RVal) : TeamRow :=
  { teamID := v, team_id := .null, key := .null, abbreviation := .null,
    name := .str " Bears ", city := .null, conference := .str "AFC",
    division := .null }

/-- A teams table whose two rows carry the distinct raw identifiers `1`
and `"1"`, which numeric coercion maps to the same integer. -/
def exTeamsDup : TeamsTable :=
  { hasTeamID := true, hasTeam_id := false, hasKey := false,
    hasAbbreviation := false, hasName := true, hasCity := true,
    hasConference := true, hasDivision := false,
    rows := [exTeamRow (.num 1), exTeamRow (.numStr 1)] }

/-- A one-row teams table with a single numeric `TeamID`. -/
def exTeamsOne : TeamsTable := { exTeamsDup with rows := [exTeamRow (.num 1)] }

/-- A non-empty teams table carrying none of the recognised identifier
columns `TeamID` / `team_id` / `Key`. -/
def exTeamsNoId : TeamsTable :=
  { hasTeamID := false, hasTeam_id := false, hasKey := false,
    hasAbbreviation := false, hasName := true, hasCity := true,
    hasConference := true, hasDivision := false,
    rows := [exTeamRow (.str "x"), exTeamRow (.str "y")] }

/-- A home game of team 100 against team 200, final score 24 : 0. -/
def exHomeGame (i : ℕ) : GameRow :=
  { game_id := .num (100 + i), season := .num 2024, week := .num 1,
    date := .valid 0, home_team_id := .num 100, away_team_id := .num 200,
    home_score := .num 24, away_score := .num 0, status := "Final" }

/-- An away game of team 100 at team 200, final score 0 : 20. -/
def exAwayGame (i : ℕ) : GameRow :=
  { game_id := .num (200 + i), season := .num 2024, week := .num 2,
    date := .valid 0, home_team_id := .num 200, away_team_id := .num 100,
    home_score := .num 0, away_score := .num 20, status := "Final" }

/-- Ten home games at 24 points and six away games at 20 points for
team 100: the worked example of the weighted-average claim. -/
def exSeason : List GameRow :=
  (List.range 10).map exHomeGame ++ (List.range 6).map exAwayGame

/-- Two aggregate rows with identical ranking keys but different
identifiers, for stability witnesses. -/
def exStat (t : ℚ) : TeamStat :=
  { team_id := t, home_games := 1, avg_points_scored_home := 10,
    total_points_home := 10, avg_points_allowed_home := 7,
    avg_differential_home := 3, home_wins := 1, away_games := 0,
    avg_points_scored_away := 0, total_points_away := 0,
    avg_points_allowed_away := 0, avg_differential_away := 0,
    away_wins := 0, total_games := 1, total_wins := 1, total_losses := 0,
    win_percentage := 1, avg_points_scored := 10, avg_points_allowed := 7,
    net_points := 3, home_field_advantage := 3 }

/-! ## Deduplication lemmas -/

theorem mem_of_mem_dedupByAux {α κ : Type} (k : α → κ) [DecidableEq κ] :
    ∀ (seen : List κ) (l : List α) (x : α), x ∈ dedupByAux k seen l → x ∈ l := by
  intro seen l
  induction l generalizing seen with
  | nil => intro x hx; simp [dedupByAux] at hx
  | cons y ys ih =>
    intro x hx
    simp only [dedupByAux] at hx
    split at hx
    · exact List.mem_cons_of_mem _ (ih seen x hx)
    · rcases List.mem_cons.mp hx with h | h
      · exact h ▸ List.mem_cons_self _ _
      · exact List.mem_cons_of_mem _ (ih _ x h)

theorem key_notMem_seen_of_mem_dedupByAux {α κ : Type} (k : α → κ) [DecidableEq κ] :
    ∀ (seen : List κ) (l : List α) (x : α), x ∈ dedupByAux k seen l → k x ∉ seen := by
  intro seen l
  induction l generalizing seen with
  | nil => intro x hx; simp [dedupByAux] at hx
  | cons y ys ih =>
    intro x hx
    simp only [dedupByAux] at hx
    split at hx
    · exact ih seen x hx
    · rcases List.mem_cons.mp hx with h | h
      · subst h; assumption
      · have := ih _ x h
        intro hc
        exact this (List.mem_cons_of_mem _ hc)

theorem keys_nodup_dedupByAux {α κ : Type} (k : α → κ) [DecidableEq κ] :
    ∀ (seen : List κ) (l : List α), ((dedupByAux k seen l).map k).Nodup := by
  intro seen l
  induction l generalizing seen with
  | nil => simp [dedupByAux]
  | cons y ys ih =>
    simp only [dedupByAux]
    split
    · exact ih seen
    · refine List.Nodup.cons ?_ (ih _)
      intro hc
      rcases List.mem_map.mp hc with ⟨z, hz, hkz⟩
      exact key_notMem_seen_of_mem_dedupByAux k _ _ z hz
        (hkz ▸ List.mem_cons_self _ _)

/-- Keys appearing in the deduplicated list are pairwise distinct. -/
theorem keys_nodup_dedupBy {α κ : Type} (k : α → κ) [DecidableEq κ] (l : List α) :
    ((dedupBy k l).map k).Nodup :=
  keys_nodup_dedupByAux k [] l

theorem find?_eq_of_mem_dedupByAux {α κ : Type} (k : α → κ) [DecidableEq κ] :
    ∀ (seen : List κ) (l : List α) (x : α), x ∈ dedupByAux k seen l →
      l.find? (fun y => k y == k x) = some x := by
  intro seen l
  induction l generalizing seen with
  | nil => intro x hx; simp [dedupByAux] at hx
  | cons y ys ih =>
    intro x hx
    simp only [dedupByAux] at hx
    split at hx
    · rename_i hseen
      have hne : k x ≠ k y := by
        intro heq
        exact key_notMem_seen_of_mem_dedupByAux k seen ys x hx (heq ▸ hseen)
      rw [List.find?_cons_of_neg, ih seen x hx]
      simp [hne.symm]
    · rcases List.mem_cons.mp hx with h | h
      · subst h
        rw [List.find?_cons_of_pos]
        simp
      · have hxs := key_notMem_seen_of_mem_dedupByAux k _ _ x h
        have hne : k x ≠ k y := by
          intro hc
          exact hxs (hc ▸ List.mem_cons_self _ _)
        rw [List.find?_cons_of_neg, ih _ x h]
        simp [hne.symm]

/-- A surviving row of `drop_duplicates` is the first input row with
its key value. -/
theorem find?_eq_of_mem_dedupBy {α κ : Type} (k : α → κ) [DecidableEq κ]
    (l : List α) (x : α) (hx : x ∈ dedupBy k l) :
    l.find? (fun y => k y == k x) = some x :=
  find?_eq_of_mem_dedupByAux k [] l x hx

theorem dedupByAux_eq_self {α κ : Type} (k : α → κ) [DecidableEq κ] :
    ∀ (seen : List κ) (l : List α), (l.map k).Nodup →
      (∀ x ∈ l, k x ∉ seen) → dedupByAux k seen l = l := by
  intro seen l
  induction l generalizing seen with
  | nil => intro _ _; simp [dedupByAux]
  | cons y ys ih =>
    intro hnd hseen
    simp only [dedupByAux]
    rw [if_neg (hseen y (List.mem_cons_self _ _))]
    congr 1
    refine ih _ (by simpa using hnd.of_cons) ?_
    intro x hx
    simp only [List.mem_cons, not_or]
    constructor
    · intro hc
      have : k y ∈ ys.map k := hc ▸ List.mem_map_of_mem k hx
      simp only [List.map_cons, List.nodup_cons] at hnd
      exact hnd.1 this
    · exact hseen x (List.mem_cons_of_mem _ hx)

/-- `drop_duplicates` is the identity on a list whose keys are already
pairwise distinct. -/
theorem dedupBy_eq_self {α κ : Type} (k : α → κ) [DecidableEq κ]
    (l : List α) (h : (l.map k).Nodup) : dedupBy k l = l :=
  dedupByAux_eq_self k [] l h (by simp)

/-! ## Generic list lemmas -/

/-- `filterMap` of a function that keeps every member unchanged. -/
theorem filterMap_eq_self_of {α : Type} (f : α → Option α) :
    ∀ (l : List α), (∀ x ∈ l, f x = some x) → l.filterMap f = l := by
  intro l
  induction l with
  | nil => intro _; simp
  | cons y ys ih =>
    intro h
    rw [List.filterMap_cons, h y (List.mem_cons_self _ _),
      ih (fun x hx => h x (List.mem_cons_of_mem _ hx))]

/-- The keys of a key-preserving `filterMap` form a sublist of the
input keys. -/
theorem keys_filterMap_sublist {α κ : Type} (k : α → κ) (f : α → Option α)
    (hf : ∀ x y, f x = some y → k y = k x) :
    ∀ (l : List α), ((l.filterMap f).map k).Sublist (l.map k) := by
  intro l
  induction l with
  | nil => simp
  | cons y ys ih =>
    rw [List.filterMap_cons]
    cases hfy : f y with
    | none => exact (List.map_cons _ _ _ ▸ ih.cons (k y))
    | some z =>
      rw [List.map_cons, List.map_cons, hf y z hfy]
      exact ih.cons₂ (k y)

/-- A `filterMap` whose function succeeds on every member has the same
length as its input. -/
theorem filterMap_length_of_total {α β : Type} (f : α → Option β) :
    ∀ (l : List α), (∀ x ∈ l, ∃ y, f x = some y) →
      (l.filterMap f).length = l.length := by
  intro l
  induction l with
  | nil => intro _; simp
  | cons y ys ih =>
    intro h
    obtain ⟨z, hz⟩ := h y (List.mem_cons_self _ _)
    rw [List.filterMap_cons, hz, List.length_cons,
      ih (fun x hx => h x (List.mem_cons_of_mem _ hx)), List.length_cons]

/-! ## Cell-level coercion lemmas -/

theorem coerceFill0_isNum (v : RVal) : ∃ q, v.coerceFill0 = .num q := by
  cases v <;> simp [RVal.coerceFill0, RVal.toNumeric]

theorem coerceFill0_idem (v : RVal) : v.coerceFill0.coerceFill0 = v.coerceFill0 := by
  cases v <;> rfl

theorem coerceNum_idem (v : RVal) : v.coerceNum.coerceNum = v.coerceNum := by
  cases v <;> rfl

theorem coerceNum_of_unparsable (v : RVal) (h : v.toNumeric = none) :
    v.coerceNum = .null := by
  simp [RVal.coerceNum, h]

/-! ## Structure of the event cleaner -/

theorem gameRow_ext {a b : GameRow} (h1 : a.game_id = b.game_id)
    (h2 : a.season = b.season) (h3 : a.week = b.week) (h4 : a.date = b.date)
    (h5 : a.home_team_id = b.home_team_id) (h6 : a.away_team_id = b.away_team_id)
    (h7 : a.home_score = b.home_score) (h8 : a.away_score = b.away_score)
    (h9 : a.status = b.status) : a = b := by
  cases a; cases b; simp_all

/-- Field-wise description of a row surviving the per-row cleaning
step: the date parsed, scores are coerce-and-filled, the four numeric
columns are coerced with `NaN` kept, identifiers and status are
untouched, and both business-rule predicates reject it no further. -/
theorem cleanGameRowSteps_spec (r r' : GameRow) (h : cleanGameRowSteps r = some r') :
    (∃ d, r.date.parse = some d ∧ r'.date = .valid d) ∧
      r'.game_id = r.game_id ∧ r'.status = r.status ∧
      r'.season = r.season.coerceNum ∧ r'.week = r.week.coerceNum ∧
      r'.home_team_id = r.home_team_id.coerceNum ∧
      r'.away_team_id = r.away_team_id.coerceNum ∧
      r'.home_score = r.home_score.coerceFill0 ∧
      r'.away_score = r.away_score.coerceFill0 ∧
      sameTeamRow r' = false ∧ invalidWeekRow r' = false := by
  unfold cleanGameRowSteps at h
  cases hd : parseDateRow (coerceScoresRow r) with
  | none => rw [hd] at h; simp at h
  | some r2 =>
    rw [hd] at h
    simp only at h
    unfold parseDateRow at hd
    have hdate : (coerceScoresRow r).date = r.date := rfl
    rw [hdate] at hd
    cases hp : r.date.parse with
    | none => rw [hp] at hd; exact absurd hd (by simp)
    | some d =>
      rw [hp] at hd
      simp only [Option.map_some', Option.some_inj] at hd
      subst hd
      split at h
      · exact absurd h (by simp)
      · split at h
        · exact absurd h (by simp)
        · rename_i hsame hweek
          rw [Option.some_inj] at h
          subst h
          refine ⟨⟨d, rfl, rfl⟩, rfl, rfl, rfl, rfl, rfl, rfl, rfl, rfl, ?_, ?_⟩
          · simpa using hsame
          · simpa using hweek

theorem clean_pipeline_eq : ∀ (m : List GameRow),
    ((((m.map coerceScoresRow).filterMap parseDateRow).map coerceNumsRow).filter
      (fun r => !sameTeamRow r)).filter (fun r => !invalidWeekRow r)
    = m.filterMap cleanGameRowSteps := by
  intro m
  induction m with
  | nil => simp
  | cons y ys ih =>
    rw [List.map_cons]
    cases hd : parseDateRow (coerceScoresRow y) with
    | none =>
      rw [List.filterMap_cons_none hd,
        List.filterMap_cons_none (show cleanGameRowSteps y = none by
          unfold cleanGameRowSteps; rw [hd])]
      exact ih
    | some r2 =>
      rw [List.filterMap_cons_some hd, List.map_cons, List.filter_cons]
      by_cases hs : sameTeamRow (coerceNumsRow r2)
      · rw [show (!sameTeamRow (coerceNumsRow r2)) = false by rw [hs]; rfl,
          List.filterMap_cons_none (show cleanGameRowSteps y = none by
            unfold cleanGameRowSteps; rw [hd]; simp [hs])]
        simp only [Bool.false_eq_true, if_false]
        exact ih
      · rw [show (!sameTeamRow (coerceNumsRow r2)) = true by
          rw [Bool.eq_false_iff.mpr hs]; rfl]
        simp only [if_true, List.filter_cons]
        by_cases hw : invalidWeekRow (coerceNumsRow r2)
        · rw [show (!invalidWeekRow (coerceNumsRow r2)) = false by rw [hw]; rfl,
            List.filterMap_cons_none (show cleanGameRowSteps y = none by
              unfold cleanGameRowSteps; rw [hd]; simp [hs, hw])]
          simp only [Bool.false_eq_true, if_false]
          exact ih
        · rw [show (!invalidWeekRow (coerceNumsRow r2)) = true by
            rw [Bool.eq_false_iff.mpr hw]; rfl,
            List.filterMap_cons_some (show cleanGameRowSteps y = some (coerceNumsRow r2) by
              unfold cleanGameRowSteps; rw [hd]; simp [hs, hw])]
          simp only [if_true]
          rw [ih]

/-- The event cleaner is deduplication by `game_id` followed by the
per-row cleaning step. -/
theorem clean_games_eq_filterMap (l : List GameRow) :
    clean_games_data l = (dedupBy (fun r => r.game_id) l).filterMap cleanGameRowSteps := by
  by_cases h : l.isEmpty
  · have hl : l = [] := List.isEmpty_iff.mp h
    subst hl
    simp [clean_games_data, dedupBy, dedupByAux]
  · simp only [clean_games_data, if_neg h]
    exact clean_pipeline_eq _

theorem cleanGameRowSteps_game_id (r r' : GameRow)
    (h : cleanGameRowSteps r = some r') : r'.game_id = r.game_id :=
  (cleanGameRowSteps_spec r r' h).2.1

/-- Every cleaned row arises from some raw row via the per-row step. -/
theorem mem_clean_games (l : List GameRow) (r : GameRow)
    (h : r ∈ clean_games_data l) :
    ∃ r₀, r₀ ∈ dedupBy (fun x => x.game_id) l ∧ cleanGameRowSteps r₀ = some r := by
  rw [clean_games_eq_filterMap] at h
  exact List.mem_filterMap.mp h

/-- The cleaned game identifiers are pairwise distinct. -/
theorem clean_games_ids_nodup (l : List GameRow) :
    ((clean_games_data l).map (fun r => r.game_id)).Nodup := by
  rw [clean_games_eq_filterMap]
  exact ((keys_filterMap_sublist (fun r => r.game_id) cleanGameRowSteps
    (fun x y hy => cleanGameRowSteps_game_id x y hy) _).nodup
    (keys_nodup_dedupBy _ _))

/-- A row that survived the per-row cleaning step is a fixed point of
that step: every transformation leaves it unchanged, and both filters
keep it. -/
theorem cleanGameRowSteps_idem (r r' : GameRow)
    (h : cleanGameRowSteps r = some r') : cleanGameRowSteps r' = some r' := by
  obtain ⟨⟨d, hd, hdate⟩, hgid, hstat, hsea, hwk, hht, hat, hhs, has, hsame, hweek⟩ :=
    cleanGameRowSteps_spec r r' h
  have hcs : coerceScoresRow r' = r' := by
    refine gameRow_ext rfl rfl rfl rfl rfl rfl ?_ ?_ rfl
    · show r'.home_score.coerceFill0 = r'.home_score
      rw [hhs, coerceFill0_idem]
    · show r'.away_score.coerceFill0 = r'.away_score
      rw [has, coerceFill0_idem]
  have hcn : coerceNumsRow r' = r' := by
    refine gameRow_ext rfl ?_ ?_ rfl ?_ ?_ rfl rfl rfl
    · show r'.season.coerceNum = r'.season
      rw [hsea, coerceNum_idem]
    · show r'.week.coerceNum = r'.week
      rw [hwk, coerceNum_idem]
    · show r'.home_team_id.coerceNum = r'.home_team_id
      rw [hht, coerceNum_idem]
    · show r'.away_team_id.coerceNum = r'.away_team_id
      rw [hat, coerceNum_idem]
  have hpd : parseDateRow r' = some r' := by
    unfold parseDateRow
    rw [hdate]
    show some { r' with date := .valid d } = some r'
    rw [← hdate]
  unfold cleanGameRowSteps
  rw [hcs, hpd]
  simp only [hcn, hsame, hweek]
  rfl

/-- Cleaning an already-cleaned event table changes nothing. -/
theorem clean_games_idem (l : List GameRow) :
    clean_games_data (clean_games_data l) = clean_games_data l := by
  rw [clean_games_eq_filterMap (clean_games_data l),
    dedupBy_eq_self _ _ (clean_games_ids_nodup l)]
  apply filterMap_eq_self_of
  intro x hx
  obtain ⟨r₀, _, hsteps⟩ := mem_clean_games l x hx
  exact cleanGameRowSteps_idem r₀ x hsteps

/-! ## Ranking comparator and stable sort -/

theorem teamLE_total (a b : TeamStat) : (teamLE a b || teamLE b a) = true := by
  by_cases h : a.win_percentage = b.win_percentage
  · by_cases h2 : b.net_points ≤ a.net_points
    · simp [teamLE, h, h2]
    · have h3 : a.net_points ≤ b.net_points := le_of_not_le h2
      simp [teamLE, h, h3]
  · rcases lt_or_gt_of_ne h with hl | hg
    · simp [teamLE, hl]
    · simp [teamLE, hg]

theorem teamLE_trans (a b c : TeamStat) (hab : teamLE a b = true)
    (hbc : teamLE b c = true) : teamLE a c = true := by
  simp only [teamLE, Bool.or_eq_true, Bool.and_eq_true, decide_eq_true_eq,
    beq_iff_eq] at hab hbc ⊢
  rcases hab with h1 | ⟨h1, h2⟩ <;> rcases hbc with h3 | ⟨h3, h4⟩
  · exact Or.inl (h3.trans h1)
  · exact Or.inl (h3 ▸ h1)
  · exact Or.inl (h1 ▸ h3)
  · exact Or.inr ⟨h1.trans h3, h4.trans h2⟩

theorem pair_sublist_of_lt {β : Type} :
    ∀ (m : List β) (i j : ℕ) (hi : i < m.length) (hj : j < m.length), i < j →
      List.Sublist [m[i], m[j]] m := by
  intro m
  induction m with
  | nil => intro i j hi _ _; simp at hi
  | cons x xs ih =>
    intro i j hi hj hij
    cases j with
    | zero => omega
    | succ j' =>
      cases i with
      | zero =>
        simp only [List.getElem_cons_zero, List.getElem_cons_succ]
        refine List.Sublist.cons₂ x ?_
        rw [List.singleton_sublist]
        exact List.getElem_mem _
      | succ i' =>
        simp only [List.getElem_cons_succ]
        exact (ih i' j' (by simpa using hi) (by simpa using hj) (by omega)).cons x

theorem pair_sublist_index {β : Type} {a b : β} :
    ∀ {m : List β}, List.Sublist [a, b] m →
      ∃ pi pj : ℕ, pi < pj ∧ m[pi]? = some a ∧ m[pj]? = some b := by
  intro m
  induction m with
  | nil => intro h; simp at h
  | cons x xs ih =>
    intro h
    cases h with
    | cons _ h' =>
      obtain ⟨pi, pj, hlt, ha, hb⟩ := ih h'
      exact ⟨pi + 1, pj + 1, by omega, by simpa using ha, by simpa using hb⟩
    | cons₂ _ h' =>
      obtain ⟨n, hn⟩ := List.getElem?_of_mem (List.singleton_sublist.mp h')
      exact ⟨0, n + 1, by omega, by simp, by simpa using hn⟩

/-- The ranking sort is sorted by the comparator. -/
theorem sortTeamStats_sorted (l : List TeamStat) :
    (sortTeamStats l).Pairwise (fun x y => teamLE x.2 y.2 = true) := by
  unfold sortTeamStats
  exact @List.sorted_mergeSort (ℕ × TeamStat) (fun x y => teamLE x.2 y.2)
    (fun a b c hab hbc => teamLE_trans a.2 b.2 c.2 hab hbc)
    (fun a b => teamLE_total a.2 b.2) l.enum

/-- Stability of the ranking sort: two rows with equal sort keys keep
their relative input positions. -/
theorem sortTeamStats_stable (l : List TeamStat) (i j : ℕ)
    (hi : i < l.length) (hj : j < l.length) (hij : i < j)
    (hwp : l[i].win_percentage = l[j].win_percentage)
    (hnp : l[i].net_points = l[j].net_points) :
    ∃ pi pj : ℕ, pi < pj ∧
      (sortTeamStats l)[pi]? = some (i, l[i]) ∧
      (sortTeamStats l)[pj]? = some (j, l[j]) := by
  have hi' : i < l.enum.length := by simpa using hi
  have hj' : j < l.enum.length := by simpa using hj
  have hgi : l.enum[i] = (i, l[i]) := List.getElem_enum l i hi'
  have hgj : l.enum[j] = (j, l[j]) := List.getElem_enum l j hj'
  have hsub : List.Sublist [((i, l[i]) : ℕ × TeamStat), (j, l[j])] l.enum := by
    rw [← hgi, ← hgj]
    exact pair_sublist_of_lt l.enum i j hi' hj' hij
  have hab : teamLE l[i] l[j] = true := by
    simp [teamLE, hwp, hnp]
  have hstable := @List.pair_sublist_mergeSort (ℕ × TeamStat)
    (fun x y => teamLE x.2 y.2) ((i, l[i]) : ℕ × TeamStat) ((j, l[j]) : ℕ × TeamStat)
    l.enum
    (fun a b c hab' hbc' => teamLE_trans a.2 b.2 c.2 hab' hbc')
    (fun a b => teamLE_total a.2 b.2) hab hsub
  exact pair_sublist_index hstable

theorem sortTeamStats_length (l : List TeamStat) :
    (sortTeamStats l).length = l.length := by
  unfold sortTeamStats
  rw [List.length_mergeSort, List.enum_length]

/-- `power_ranking` is exactly `1, 2, …, n` in output order. -/
theorem rankTeams_ranks (l : List TeamStat) :
    (rankTeams l).map Prod.snd = List.range' 1 l.length := by
  unfold rankTeams
  rw [List.map_map]
  rw [show (Prod.snd ∘ fun p : ℕ × (ℕ × TeamStat) => (p.2.2, p.1 + 1))
      = ((fun n => 1 + n) ∘ Prod.fst) by funext p; simp [Nat.add_comm]]
  rw [← List.map_map, List.enum_map_fst, ← List.range'_eq_map_range,
    sortTeamStats_length]

/-! ## Text standardisation lemmas -/

theorem dropWhile_head_false {α : Type} (p : α → Bool) :
    ∀ (l : List α) (a : α) (t : List α), l.dropWhile p = a :: t → p a = false := by
  intro l
  induction l with
  | nil => intro a t h; simp at h
  | cons x xs ih =>
    intro a t h
    rw [List.dropWhile_cons] at h
    split at h
    · exact ih a t h
    · rename_i hx
      cases h
      exact Bool.eq_false_iff.mpr hx

theorem dropWhile_eq_self_of_head {α : Type} (p : α → Bool) (l : List α)
    (h : ∀ a t, l = a :: t → p a = false) : l.dropWhile p = l := by
  cases l with
  | nil => rfl
  | cons a t =>
    rw [List.dropWhile_cons, if_neg]
    rw [h a t rfl]
    simp

theorem trimChars_idem (l : List Char) : trimChars (trimChars l) = trimChars l := by
  unfold trimChars
  have hA : ((l.dropWhile Char.isWhitespace).reverse.dropWhile
      Char.isWhitespace).reverse.dropWhile Char.isWhitespace
      = ((l.dropWhile Char.isWhitespace).reverse.dropWhile Char.isWhitespace).reverse := by
    apply dropWhile_eq_self_of_head
    intro a t h
    have hsuf : List.IsSuffix ((l.dropWhile Char.isWhitespace).reverse.dropWhile
        Char.isWhitespace) (l.dropWhile Char.isWhitespace).reverse :=
      List.dropWhile_suffix _
    have hpre := List.reverse_prefix.mpr hsuf
    rw [List.reverse_reverse] at hpre
    obtain ⟨u, hu⟩ := hpre
    rw [h] at hu
    exact dropWhile_head_false Char.isWhitespace l a (t ++ u) (by rw [← hu]; rfl)
  rw [hA, List.reverse_reverse]
  congr 1
  apply dropWhile_eq_self_of_head
  intro a t h
  exact dropWhile_head_false Char.isWhitespace
    (l.dropWhile Char.isWhitespace).reverse a t h

theorem strTrim_idem (s : String) : strTrim (strTrim s) = strTrim s := by
  unfold strTrim
  rw [show (String.mk (trimChars s.data)).data = trimChars s.data from rfl,
    trimChars_idem]

theorem toStrTrim_idem (v : RVal) : v.toStrTrim.toStrTrim = v.toStrTrim := by
  cases v with
  | num q => rfl
  | numStr q => rfl
  | str s => show RVal.str (strTrim (strTrim s)) = RVal.str (strTrim s); rw [strTrim_idem]
  | null =>
    show RVal.str (strTrim "nan") = RVal.str "nan"
    decide

theorem toStrTrim_ne_null (v : RVal) : v.toStrTrim ≠ .null := by
  cases v <;> simp [RVal.toStrTrim]

theorem fillUnknown_of_ne_null (v : RVal) (h : v ≠ .null) : fillUnknown v = v := by
  simp [fillUnknown, h]

theorem fillUnknown_ne_null (v : RVal) : fillUnknown v ≠ .null := by
  unfold fillUnknown
  split <;> simp_all

theorem confValid_after_validate (v : RVal) :
    confValid (if confValid v then v else .str "Unknown") = true := by
  by_cases h : confValid v
  · simp [h]
  · simp [h]
    decide

theorem toStrTrim_unknown : RVal.toStrTrim (.str "Unknown") = .str "Unknown" := by
  show RVal.str (strTrim "Unknown") = RVal.str "Unknown"
  decide

theorem ratTruncToInt_intCast (k : ℤ) : ratTruncToInt ((k : ℤ) : ℚ) = k := by
  simp [ratTruncToInt]

/-! ## Structure of the entity cleaner -/

theorem teamRow_ext {a b : TeamRow} (h1 : a.teamID = b.teamID)
    (h2 : a.team_id = b.team_id) (h3 : a.key = b.key)
    (h4 : a.abbreviation = b.abbreviation) (h5 : a.name = b.name)
    (h6 : a.city = b.city) (h7 : a.conference = b.conference)
    (h8 : a.division = b.division) : a = b := by
  cases a; cases b; simp_all

theorem validateConfRow_name (hc : Bool) (r : TeamRow) :
    (validateConfRow hc r).name = r.name := by
  cases hc <;> rfl

theorem validateConfRow_city (hc : Bool) (r : TeamRow) :
    (validateConfRow hc r).city = r.city := by
  cases hc <;> rfl

theorem validateConfRow_abbreviation (hc : Bool) (r : TeamRow) :
    (validateConfRow hc r).abbreviation = r.abbreviation := by
  cases hc <;> rfl

theorem validateConfRow_division (hc : Bool) (r : TeamRow) :
    (validateConfRow hc r).division = r.division := by
  cases hc <;> rfl

theorem validateConfRow_team_id (hc : Bool) (r : TeamRow) :
    (validateConfRow hc r).team_id = r.team_id := by
  cases hc <;> rfl

/-- Invariants of a row after renaming, fills, text standardisation and
conference validation: every text column the table carries is stripped
(hence a fixed point of further stripping), the filled columns are
non-missing, and the conference value passes validation. -/
theorem validated_spec (hTID hKey hAbbr hName hCity hConf hDiv : Bool)
    (r0 r4 : TeamRow)
    (hr4 : r4 = validateConfRow hConf (stripTeamRow hName hCity hAbbr hConf hDiv
      (fillTeamRow hCity hConf hDiv (renameTeamRow hTID hKey r0)))) :
    (hName = true → r4.name.toStrTrim = r4.name) ∧
    (hCity = true → r4.city ≠ .null ∧ r4.city.toStrTrim = r4.city) ∧
    (hAbbr = true → r4.abbreviation ≠ .null ∧
      r4.abbreviation.toStrTrim = r4.abbreviation) ∧
    (hConf = true → r4.conference ≠ .null ∧
      r4.conference.toStrTrim = r4.conference ∧ confValid r4.conference = true) ∧
    (hDiv = true → r4.division ≠ .null ∧ r4.division.toStrTrim = r4.division) := by
  refine ⟨?_, ?_, ?_, ?_, ?_⟩
  · intro hn; subst hn
    rw [hr4, validateConfRow_name]
    show ((fillTeamRow hCity hConf hDiv (renameTeamRow hTID hKey r0)).name.toStrTrim).toStrTrim
      = (fillTeamRow hCity hConf hDiv (renameTeamRow hTID hKey r0)).name.toStrTrim
    rw [toStrTrim_idem]
  · intro hc; subst hc
    rw [hr4, validateConfRow_city]
    refine ⟨toStrTrim_ne_null _, ?_⟩
    show ((fillTeamRow true hConf hDiv (renameTeamRow hTID hKey r0)).city.toStrTrim).toStrTrim
      = (fillTeamRow true hConf hDiv (renameTeamRow hTID hKey r0)).city.toStrTrim
    rw [toStrTrim_idem]
  · intro ha; subst ha
    rw [hr4, validateConfRow_abbreviation]
    refine ⟨toStrTrim_ne_null _, ?_⟩
    show ((fillTeamRow hCity hConf hDiv (renameTeamRow hTID hKey r0)).abbreviation.toStrTrim).toStrTrim
      = (fillTeamRow hCity hConf hDiv (renameTeamRow hTID hKey r0)).abbreviation.toStrTrim
    rw [toStrTrim_idem]
  · intro hco; subst hco
    rw [hr4]
    show (let w := (stripTeamRow hName hCity hAbbr true hDiv
        (fillTeamRow hCity true hDiv (renameTeamRow hTID hKey r0))).conference
      (if confValid w then w else .str "Unknown") ≠ RVal.null ∧
      (if confValid w then w else .str "Unknown").toStrTrim
        = (if confValid w then w else .str "Unknown") ∧
      confValid (if confValid w then w else .str "Unknown") = true)
    have hw : (stripTeamRow hName hCity hAbbr true hDiv
        (fillTeamRow hCity true hDiv (renameTeamRow hTID hKey r0))).conference
        = ((fillTeamRow hCity true hDiv (renameTeamRow hTID hKey r0)).conference).toStrTrim := rfl
    by_cases hv : confValid ((stripTeamRow hName hCity hAbbr true hDiv
        (fillTeamRow hCity true hDiv (renameTeamRow hTID hKey r0))).conference)
    · simp only [hv, if_true]
      refine ⟨by rw [hw]; exact toStrTrim_ne_null _, by rw [hw, toStrTrim_idem], trivial⟩
    · simp only [hv, if_false, Bool.false_eq_true]
      refine ⟨by simp, toStrTrim_unknown, by decide⟩
  · intro hd; subst hd
    rw [hr4, validateConfRow_division]
    refine ⟨toStrTrim_ne_null _, ?_⟩
    show ((fillTeamRow hCity hConf true (renameTeamRow hTID hKey r0)).division.toStrTrim).toStrTrim
      = (fillTeamRow hCity hConf true (renameTeamRow hTID hKey r0)).division.toStrTrim
    rw [toStrTrim_idem]

theorem cleanTeamRowSteps_spec (hTID hKey hAbbr hName hCity hConf hDiv hTid : Bool)
    (r0 r : TeamRow)
    (h : cleanTeamRowSteps hTID hKey hAbbr hName hCity hConf hDiv hTid r0 = some r) :
    (hName = true → r.name.toStrTrim = r.name) ∧
    (hCity = true → r.city ≠ .null ∧ r.city.toStrTrim = r.city) ∧
    (hAbbr = true → r.abbreviation ≠ .null ∧
      r.abbreviation.toStrTrim = r.abbreviation) ∧
    (hConf = true → r.conference ≠ .null ∧
      r.conference.toStrTrim = r.conference ∧ confValid r.conference = true) ∧
    (hDiv = true → r.division ≠ .null ∧ r.division.toStrTrim = r.division) ∧
    (hTid = true → ∃ k : ℤ, r.team_id = .num ((k : ℤ) : ℚ)) := by
  unfold cleanTeamRowSteps at h
  cases hTid with
  | false =>
    simp only [Bool.false_eq_true, if_false, Option.some_inj] at h
    have hs := validated_spec hTID hKey hAbbr hName hCity hConf hDiv r0 r h.symm
    exact ⟨hs.1, hs.2.1, hs.2.2.1, hs.2.2.2.1, hs.2.2.2.2,
      by intro hc; exact absurd hc (by simp)⟩
  | true =>
    simp only [if_true] at h
    unfold coerceTeamIdRow at h
    cases hq : (validateConfRow hConf (stripTeamRow hName hCity hAbbr hConf hDiv
        (fillTeamRow hCity hConf hDiv (renameTeamRow hTID hKey r0)))).team_id.toNumeric with
    | none => rw [hq] at h; simp at h
    | some q =>
      rw [hq] at h
      simp only [Option.some_inj] at h
      have hs := validated_spec hTID hKey hAbbr hName hCity hConf hDiv r0 _ rfl
      subst h
      exact ⟨hs.1, hs.2.1, hs.2.2.1, hs.2.2.2.1, hs.2.2.2.2,
        fun _ => ⟨ratTruncToInt q, rfl⟩⟩

theorem renameTeamRow_id (r : TeamRow) : renameTeamRow false false r = r := rfl

theorem fillTeamRow_fixed (hCity hConf hDiv : Bool) (r : TeamRow)
    (hc : hCity = true → r.city ≠ .null)
    (hco : hConf = true → r.conference ≠ .null)
    (hd : hDiv = true → r.division ≠ .null) :
    fillTeamRow hCity hConf hDiv r = r := by
  refine teamRow_ext rfl rfl rfl rfl rfl ?_ ?_ ?_
  · show (if hCity then fillUnknown r.city else r.city) = r.city
    cases hCity with
    | false => rfl
    | true => simp only [if_true]; exact fillUnknown_of_ne_null _ (hc rfl)
  · show (if hConf then fillUnknown r.conference else r.conference) = r.conference
    cases hConf with
    | false => rfl
    | true => simp only [if_true]; exact fillUnknown_of_ne_null _ (hco rfl)
  · show (if hDiv then fillUnknown r.division else r.division) = r.division
    cases hDiv with
    | false => rfl
    | true => simp only [if_true]; exact fillUnknown_of_ne_null _ (hd rfl)

theorem stripTeamRow_fixed (hName hCity hAbbr hConf hDiv : Bool) (r : TeamRow)
    (h1 : hName = true → r.name.toStrTrim = r.name)
    (h2 : hCity = true → r.city.toStrTrim = r.city)
    (h3 : hAbbr = true → r.abbreviation.toStrTrim = r.abbreviation)
    (h4 : hConf = true → r.conference.toStrTrim = r.conference)
    (h5 : hDiv = true → r.division.toStrTrim = r.division) :
    stripTeamRow hName hCity hAbbr hConf hDiv r = r := by
  refine teamRow_ext rfl rfl rfl ?_ ?_ ?_ ?_ ?_
  · show (if hAbbr then r.abbreviation.toStrTrim else r.abbreviation) = r.abbreviation
    cases hAbbr with
    | false => rfl
    | true => simp only [if_true]; exact h3 rfl
  · show (if hName then r.name.toStrTrim else r.name) = r.name
    cases hName with
    | false => rfl
    | true => simp only [if_true]; exact h1 rfl
  · show (if hCity then r.city.toStrTrim else r.city) = r.city
    cases hCity with
    | false => rfl
    | true => simp only [if_true]; exact h2 rfl
  · show (if hConf then r.conference.toStrTrim else r.conference) = r.conference
    cases hConf with
    | false => rfl
    | true => simp only [if_true]; exact h4 rfl
  · show (if hDiv then r.division.toStrTrim else r.division) = r.division
    cases hDiv with
    | false => rfl
    | true => simp only [if_true]; exact h5 rfl

theorem validateConfRow_fixed (hConf : Bool) (r : TeamRow)
    (hv : hConf = true → confValid r.conference = true) :
    validateConfRow hConf r = r := by
  cases hConf with
  | false => rfl
  | true =>
    refine teamRow_ext rfl rfl rfl rfl rfl rfl ?_ rfl
    show (if confValid r.conference then r.conference else .str "Unknown") = r.conference
    rw [hv rfl]
    simp

theorem coerceTeamIdRow_fixed (r : TeamRow)
    (h : ∃ k : ℤ, r.team_id = .num ((k : ℤ) : ℚ)) :
    coerceTeamIdRow r = some r := by
  obtain ⟨k, hk⟩ := h
  unfold coerceTeamIdRow
  rw [hk]
  show some _ = some r
  refine congrArg some (teamRow_ext rfl ?_ rfl rfl rfl rfl rfl rfl)
  show RVal.num ((ratTruncToInt ((k : ℤ) : ℚ) : ℤ) : ℚ) = r.team_id
  rw [ratTruncToInt_intCast, hk]

/-- A row that survived the entity cleaner's per-row step is a fixed
point of the second pass's per-row step (the second pass sees the
canonical column names, hence performs no renames). -/
theorem cleanTeamRowSteps_idem (hTID hKey hAbbr hName hCity hConf hDiv hTid : Bool)
    (r0 r : TeamRow)
    (h : cleanTeamRowSteps hTID hKey hAbbr hName hCity hConf hDiv hTid r0 = some r) :
    cleanTeamRowSteps false false hAbbr hName hCity hConf hDiv hTid r = some r := by
  obtain ⟨s1, s2, s3, s4, s5, s6⟩ :=
    cleanTeamRowSteps_spec hTID hKey hAbbr hName hCity hConf hDiv hTid r0 r h
  unfold cleanTeamRowSteps
  simp only [renameTeamRow_id,
    fillTeamRow_fixed hCity hConf hDiv r
      (fun hc => (s2 hc).1) (fun hc => (s4 hc).1) (fun hc => (s5 hc).1),
    stripTeamRow_fixed hName hCity hAbbr hConf hDiv r
      s1 (fun hc => (s2 hc).2) (fun hc => (s3 hc).2)
      (fun hc => (s4 hc).2.1) (fun hc => (s5 hc).2),
    validateConfRow_fixed hConf r (fun hc => (s4 hc).2.2)]
  cases hTid with
  | false => rfl
  | true =>
    simp only [if_true]
    exact coerceTeamIdRow_fixed r (s6 rfl)

/-- The rows of the cleaned entity table are the deduplicated raw rows
passed through the per-row step. -/
theorem clean_teams_rows_eq (t : TeamsTable) :
    (clean_teams_data t).rows = (dedupTeams t).filterMap
      (cleanTeamRowSteps t.hasTeamID t.hasKey (t.hasKey || t.hasAbbreviation)
        t.hasName t.hasCity t.hasConference t.hasDivision
        (t.hasTeamID || t.hasTeam_id)) := by
  unfold clean_teams_data
  split
  · rename_i he
    have hnil : t.rows = [] := List.isEmpty_iff.mp he
    have hded : dedupTeams t = [] := by
      unfold dedupTeams
      cases teamIdKey t <;> simp [hnil, dedupBy, dedupByAux]
    rw [hded]
    rfl
  · rfl

theorem teamsTable_ext {a b : TeamsTable} (h1 : a.hasTeamID = b.hasTeamID)
    (h2 : a.hasTeam_id = b.hasTeam_id) (h3 : a.hasKey = b.hasKey)
    (h4 : a.hasAbbreviation = b.hasAbbreviation) (h5 : a.hasName = b.hasName)
    (h6 : a.hasCity = b.hasCity) (h7 : a.hasConference = b.hasConference)
    (h8 : a.hasDivision = b.hasDivision) (h9 : a.rows = b.rows) : a = b := by
  cases a; cases b; simp_all

theorem clean_teams_flags (t : TeamsTable) (hne : ¬ t.rows.isEmpty = true) :
    (clean_teams_data t).hasTeamID = false ∧
    (clean_teams_data t).hasTeam_id = (t.hasTeamID || t.hasTeam_id) ∧
    (clean_teams_data t).hasKey = false ∧
    (clean_teams_data t).hasAbbreviation = (t.hasKey || t.hasAbbreviation) ∧
    (clean_teams_data t).hasName = t.hasName ∧
    (clean_teams_data t).hasCity = t.hasCity ∧
    (clean_teams_data t).hasConference = t.hasConference ∧
    (clean_teams_data t).hasDivision = t.hasDivision := by
  unfold clean_teams_data
  rw [if_neg hne]
  exact ⟨rfl, rfl, rfl, rfl, rfl, rfl, rfl, rfl⟩

/-- Every cleaned entity row arises from a deduplication survivor via
the per-row step. -/
theorem mem_clean_teams (t : TeamsTable) (r : TeamRow)
    (h : r ∈ (clean_teams_data t).rows) :
    ∃ r0, r0 ∈ dedupTeams t ∧
      cleanTeamRowSteps t.hasTeamID t.hasKey (t.hasKey || t.hasAbbreviation)
        t.hasName t.hasCity t.hasConference t.hasDivision
        (t.hasTeamID || t.hasTeam_id) r0 = some r := by
  rw [clean_teams_rows_eq] at h
  exact List.mem_filterMap.mp h

/-- Cleaning an already-cleaned entity table changes nothing, provided
the cleaned identifier column has pairwise-distinct values (so the
second pass's deduplication finds nothing) and the cleaned table is
non-empty (so the second pass does not collapse it to the columnless
empty frame). -/
theorem clean_teams_idem (t : TeamsTable)
    (hne : (clean_teams_data t).rows ≠ [])
    (hnd : (((clean_teams_data t).rows).map (fun r => r.team_id)).Nodup) :
    clean_teams_data (clean_teams_data t) = clean_teams_data t := by
  have hrows_ne : ¬ t.rows.isEmpty = true := by
    intro he
    apply hne
    unfold clean_teams_data
    rw [if_pos he]
    rfl
  obtain ⟨hf1, hf2, hf3, hf4, hf5, hf6, hf7, hf8⟩ := clean_teams_flags t hrows_ne
  have hne2 : ¬ (clean_teams_data t).rows.isEmpty = true := by
    simpa [List.isEmpty_iff] using hne
  have hded2 : dedupTeams (clean_teams_data t) = (clean_teams_data t).rows := by
    unfold dedupTeams teamIdKey
    rw [hf1, hf3]
    cases hb : (clean_teams_data t).hasTeam_id with
    | false => simp
    | true =>
      simp only [Bool.false_eq_true, if_false, if_true]
      exact dedupBy_eq_self _ _ hnd
  have hmem : ∀ r ∈ (clean_teams_data t).rows,
      cleanTeamRowSteps false false (clean_teams_data t).hasAbbreviation
        (clean_teams_data t).hasName (clean_teams_data t).hasCity
        (clean_teams_data t).hasConference (clean_teams_data t).hasDivision
        (clean_teams_data t).hasTeam_id r = some r := by
    intro r hr
    obtain ⟨r0, _, hsteps⟩ := mem_clean_teams t r hr
    rw [hf4, hf2, hf5, hf6, hf7, hf8]
    exact cleanTeamRowSteps_idem t.hasTeamID t.hasKey
      (t.hasKey || t.hasAbbreviation) t.hasName t.hasCity t.hasConference
      t.hasDivision (t.hasTeamID || t.hasTeam_id) r0 r hsteps
  refine teamsTable_ext ?_ ?_ ?_ ?_ ?_ ?_ ?_ ?_ ?_
  · rw [(clean_teams_flags _ hne2).1, hf1]
  · rw [(clean_teams_flags _ hne2).2.1, hf1, hf2]
    simp
  · rw [(clean_teams_flags _ hne2).2.2.1, hf3]
  · rw [(clean_teams_flags _ hne2).2.2.2.1, hf3, hf4]
    simp
  · rw [(clean_teams_flags _ hne2).2.2.2.2.1]
  · rw [(clean_teams_flags _ hne2).2.2.2.2.2.1]
  · rw [(clean_teams_flags _ hne2).2.2.2.2.2.2.1]
  · rw [(clean_teams_flags _ hne2).2.2.2.2.2.2.2]
  · rw [clean_teams_rows_eq (clean_teams_data t), hded2, hf1, hf3]
    simp only [Bool.false_or]
    exact filterMap_eq_self_of _ _ hmem

/-- Without any recognised identifier column the entity cleaner keeps
every row: no deduplication and no identifier-coercion drops. -/
theorem clean_teams_noid_length (t : TeamsTable) (h1 : t.hasTeamID = false)
    (h2 : t.hasTeam_id = false) (h3 : t.hasKey = false) :
    (clean_teams_data t).rows.length = t.rows.length := by
  rw [clean_teams_rows_eq]
  have hded : dedupTeams t = t.rows := by
    unfold dedupTeams teamIdKey
    rw [h1, h2, h3]
    simp
  rw [hded]
  apply filterMap_length_of_total
  intro x _
  rw [h1, h2]
  simp only [Bool.or_self]
  exact ⟨_, rfl⟩

/-! ## Feature engine and aggregator lemmas -/

theorem mem_create_game_features (l : List GameRow) (r : FeatRow)
    (h : r ∈ create_game_features l) : ∃ g ∈ l, r = featRow g := by
  unfold create_game_features at h
  split at h
  · simp at h
  · obtain ⟨g, hg, hr⟩ := List.mem_map.mp h
    exact ⟨g, hg, hr.symm⟩

theorem featRow_winner (g : GameRow) :
    (featRow g).winner_team_id =
      if g.home_score.gtNum g.away_score then g.home_team_id
      else if g.away_score.gtNum g.home_score then g.away_team_id
      else .null := rfl

theorem featRow_closeness (g : GameRow) :
    (featRow g).game_closeness =
      closenessCut ((g.home_score.subNum g.away_score).absNum) := rfl

/-- Every aggregate row is produced by the merge-and-combine step. -/
theorem mem_create_team_aggregations (lf : List FeatRow) (p : TeamStat × ℕ)
    (h : p ∈ create_team_aggregations lf) :
    ∃ tq oh oa, p.1 = combineTeam tq oh oa := by
  unfold create_team_aggregations at h
  split at h
  · simp at h
  · cases hc : (completedOf lf).isEmpty with
    | true => simp only [hc, if_true] at h; simp at h
    | false =>
      simp only [hc, Bool.false_eq_true, if_false] at h
      unfold rankTeams at h
      obtain ⟨q, hq, hpq⟩ := List.mem_map.mp h
      have hq2 : q.2 ∈ sortTeamStats (buildTeamStats (completedOf lf)) := by
        have := List.mem_map_of_mem Prod.snd hq
        rwa [List.enum_map_snd] at this
      have hq3 : q.2.2 ∈ buildTeamStats (completedOf lf) := by
        unfold sortTeamStats at hq2
        rw [List.mem_mergeSort] at hq2
        have := List.mem_map_of_mem Prod.snd hq2
        rwa [List.enum_map_snd] at this
      unfold buildTeamStats at hq3
      obtain ⟨tq, _, hcomb⟩ := List.mem_map.mp hq3
      refine ⟨tq,
        (if (groupKeys (fun r => r.home_team_id) (completedOf lf)).contains tq
          then some (mkHomeStat (completedOf lf) tq) else none),
        (if (groupKeys (fun r => r.away_team_id) (completedOf lf)).contains tq
          then some (mkAwayStat (completedOf lf) tq) else none), ?_⟩
      rw [← hpq]
      exact hcomb.symm

/-- The combined metrics of a merged row satisfy the weighted-average
and win-percentage formulas with the `replace(0, 1)` divisor guard. -/
theorem combineTeam_formulas (tq : ℚ) (oh : Option HomeStat) (oa : Option AwayStat) :
    (combineTeam tq oh oa).avg_points_scored =
      ((combineTeam tq oh oa).avg_points_scored_home * (combineTeam tq oh oa).home_games
        + (combineTeam tq oh oa).avg_points_scored_away * (combineTeam tq oh oa).away_games)
      / (if (combineTeam tq oh oa).total_games = 0 then 1
          else (combineTeam tq oh oa).total_games) ∧
    (combineTeam tq oh oa).win_percentage =
      (combineTeam tq oh oa).total_wins
      / (if (combineTeam tq oh oa).total_games = 0 then 1
          else (combineTeam tq oh oa).total_games) :=
  ⟨rfl, rfl⟩

theorem featRow_home_team_id (g : GameRow) :
    (featRow g).home_team_id = g.home_team_id := rfl

theorem featRow_away_team_id (g : GameRow) :
    (featRow g).away_team_id = g.away_team_id := rfl

/-! ## Claim theorems

The arithmetic of `Rat` is re-exposed to definitional reduction so that
witnesses and counterexamples can be checked on concrete tables by
`decide` and `rfl`. -/

attribute [local semireducible] Rat.add Rat.sub Rat.mul Rat.inv

/-- Claim C1: the team aggregator sorts teams by `win_percentage`
descending then `net_points` descending with a stable sort, assigns
`power_ranking` as the 1-based position after sorting, and two teams
with identical `win_percentage` and `net_points` keep their relative
input order in the ranked output. -/
theorem C1_power_ranking_stable_sort (l : List TeamStat) :
    ((rankTeams l).map Prod.snd = List.range' 1 l.length) ∧
    (sortTeamStats l).Pairwise (fun x y => teamLE x.2 y.2 = true) ∧
    (∀ i j : ℕ, ∀ hi : i < l.length, ∀ hj : j < l.length, i < j →
      l[i].win_percentage = l[j].win_percentage →
      l[i].net_points = l[j].net_points →
      ∃ pi pj : ℕ, pi < pj ∧
        (sortTeamStats l)[pi]? = some (i, l[i]) ∧
        (sortTeamStats l)[pj]? = some (j, l[j])) :=
  ⟨rankTeams_ranks l, sortTeamStats_sorted l,
    fun i j hi hj hij hwp hnp => sortTeamStats_stable l i j hi hj hij hwp hnp⟩

/-- Witness for C1: a concrete two-team table whose rows carry equal
ranking keys keeps row 0 ahead of row 1, and the assigned ranks are
`[1, 2]`. -/
theorem C1_power_ranking_stable_sort_witness :
    ((rankTeams [exStat 1, exStat 2]).map Prod.snd = List.range' 1 2) ∧
    (∃ pi pj : ℕ, pi < pj ∧
      (sortTeamStats [exStat 1, exStat 2])[pi]? = some (0, exStat 1) ∧
      (sortTeamStats [exStat 1, exStat 2])[pj]? = some (1, exStat 2)) := by
  have h := C1_power_ranking_stable_sort [exStat 1, exStat 2]
  exact ⟨h.1, h.2.2 0 1 (by decide) (by decide) (by decide) rfl rfl⟩

/-- Claim C2 (amended): a non-empty raw entity table containing none of
the recognized identifier columns (`TeamID`, `team_id`, `Key`) is not
emptied — deduplication and identifier coercion are skipped and every
row is cleaned and kept, so the output has exactly as many rows as the
input; the cleaner does not fail. -/
theorem C2_no_id_column_keeps_rows (t : TeamsTable) (h1 : t.hasTeamID = false)
    (h2 : t.hasTeam_id = false) (h3 : t.hasKey = false) :
    (clean_teams_data t).rows.length = t.rows.length :=
  clean_teams_noid_length t h1 h2 h3

/-- Counterexample to C2 as stated: a non-empty entity table without
any recognized identifier column is cleaned to a non-empty result, not
to an empty one. -/
theorem C2_counterexample :
    exTeamsNoId.hasTeamID = false ∧ exTeamsNoId.hasTeam_id = false ∧
    exTeamsNoId.hasKey = false ∧ exTeamsNoId.rows ≠ [] ∧
    (clean_teams_data exTeamsNoId).rows ≠ [] := by decide

/-- Witness for C2's amended theorem on a concrete table. -/
theorem C2_no_id_column_keeps_rows_witness :
    (clean_teams_data exTeamsNoId).rows.length = exTeamsNoId.rows.length :=
  C2_no_id_column_keeps_rows exTeamsNoId rfl rfl rfl

/-- Claim C3 (amended): unparsable `season`/`week`/team-id cells become
missing values and are never zeroed — every cleaned row's numeric
columns are the `NaN`-keeping coercion of its raw cells; rows whose
team-id cell is missing belong to no group of the aggregator on that
side (a group holds exactly the rows whose key cell equals the group's
number); but rows with a missing week are NOT removed: the week-range
filter passes `NaN`, so they stay in the cleaned and feature outputs. -/
theorem C3_nan_coercion_and_grouping :
    (∀ r0 r : GameRow, cleanGameRowSteps r0 = some r →
      r.week = r0.week.coerceNum ∧ r.season = r0.season.coerceNum ∧
      r.home_team_id = r0.home_team_id.coerceNum ∧
      r.away_team_id = r0.away_team_id.coerceNum) ∧
    (∀ v : RVal, v.toNumeric = none → v.coerceNum = .null) ∧
    (∀ r : GameRow, r.week = .null → invalidWeekRow r = false) ∧
    (∀ (c : List FeatRow) (tq : ℚ) (r : FeatRow), r ∈ homeGroup c tq →
      r.home_team_id = .num tq) ∧
    (∀ (c : List FeatRow) (tq : ℚ) (r : FeatRow), r ∈ awayGroup c tq →
      r.away_team_id = .num tq) := by
  refine ⟨?_, ?_, ?_, ?_, ?_⟩
  · intro r0 r h
    obtain ⟨_, _, _, hsea, hwk, hht, hat, _, _, _, _⟩ := cleanGameRowSteps_spec r0 r h
    exact ⟨hwk, hsea, hht, hat⟩
  · exact coerceNum_of_unparsable
  · intro r hw
    unfold invalidWeekRow
    rw [hw]
  · intro c tq r hr
    unfold homeGroup at hr
    exact eq_of_beq (List.mem_filter.mp hr).2
  · intro c tq r hr
    unfold awayGroup at hr
    exact eq_of_beq (List.mem_filter.mp hr).2

/-- Counterexample to C3 as stated: the raw event whose `Week` cell does
not parse is coerced to a missing week (not zero) and then KEPT — it is
present in the cleaned event table and in the feature-enriched output,
so it is not excluded from the pipeline's outputs. -/
theorem C3_counterexample :
    exGameBadWeek.week.toNumeric = none ∧
    (clean_games_data [exGameBadWeek]).map (fun r => r.week) = [RVal.null] ∧
    (create_game_features (clean_games_data [exGameBadWeek])).map
      (fun r => r.week) = [RVal.null] := by decide

/-- Witness for C3's amended theorem on concrete cells and rows. -/
theorem C3_nan_coercion_and_grouping_witness :
    (RVal.str "abc").coerceNum = .null ∧
    invalidWeekRow { exGame with week := .null } = false := by
  have h := C3_nan_coercion_and_grouping
  exact ⟨h.2.1 (RVal.str "abc") rfl, h.2.2.1 { exGame with week := .null } rfl⟩

/-- Claim C4: every row of the aggregate output satisfies
`avg_points_scored = (home_avg * home_games + away_avg * away_games) /
total_games` and `win_percentage = total_wins / total_games`, where the
divisor is replaced by 1 exactly when `total_games` is 0 while the
numerator is untouched, so an all-zero merged row reports
`win_percentage = 0` and `avg_points_scored = 0` with no division
fault; concretely, 10 home games averaging 24.0 plus 6 away games
averaging 20.0 yield `avg_points_scored = 22.5`. -/
theorem C4_weighted_average_and_guard :
    (∀ (lf : List FeatRow) (p : TeamStat × ℕ), p ∈ create_team_aggregations lf →
      p.1.avg_points_scored =
        (p.1.avg_points_scored_home * p.1.home_games +
          p.1.avg_points_scored_away * p.1.away_games) /
        (if p.1.total_games = 0 then 1 else p.1.total_games) ∧
      p.1.win_percentage = p.1.total_wins /
        (if p.1.total_games = 0 then 1 else p.1.total_games)) ∧
    (∀ (c : List FeatRow) (ts : TeamStat), ts ∈ buildTeamStats c →
      ts.avg_points_scored =
        (ts.avg_points_scored_home * ts.home_games +
          ts.avg_points_scored_away * ts.away_games) /
        (if ts.total_games = 0 then 1 else ts.total_games) ∧
      ts.win_percentage = ts.total_wins /
        (if ts.total_games = 0 then 1 else ts.total_games)) ∧
    (∀ tq : ℚ, (combineTeam tq none none).total_games = 0 ∧
      (combineTeam tq none none).win_percentage = 0 ∧
      (combineTeam tq none none).avg_points_scored = 0) ∧
    ((buildTeamStats (completedOf (create_game_features exSeason))).map
      (fun s => (s.team_id, s.home_games, s.avg_points_scored_home,
        s.away_games, s.avg_points_scored_away, s.avg_points_scored))
      = [(100, 10, 24, 6, 20, 45/2), (200, 6, 0, 10, 0, 0)]) := by
  refine ⟨?_, ?_, ?_, ?_⟩
  · intro lf p h
    obtain ⟨tq, oh, oa, hp⟩ := mem_create_team_aggregations lf p h
    rw [hp]
    exact combineTeam_formulas tq oh oa
  · intro c ts h
    unfold buildTeamStats at h
    obtain ⟨tq, _, hcomb⟩ := List.mem_map.mp h
    rw [← hcomb]
    exact combineTeam_formulas tq _ _
  · intro tq
    refine ⟨by norm_num [combineTeam], by norm_num [combineTeam], by norm_num [combineTeam]⟩
  · rfl

/-- Witness for C4 at a concrete one-team aggregation. -/
theorem C4_weighted_average_and_guard_witness :
    (combineTeam 2 (some (mkHomeStat (completedOf (create_game_features [exGameNoAway])) 2)) none).avg_points_scored =
      ((combineTeam 2 (some (mkHomeStat (completedOf (create_game_features [exGameNoAway])) 2)) none).avg_points_scored_home * (combineTeam 2 (some (mkHomeStat (completedOf (create_game_features [exGameNoAway])) 2)) none).home_games +
        (combineTeam 2 (some (mkHomeStat (completedOf (create_game_features [exGameNoAway])) 2)) none).avg_points_scored_away * (combineTeam 2 (some (mkHomeStat (completedOf (create_game_features [exGameNoAway])) 2)) none).away_games) /
      (if (combineTeam 2 (some (mkHomeStat (completedOf (create_game_features [exGameNoAway])) 2)) none).total_games = 0 then 1 else (combineTeam 2 (some (mkHomeStat (completedOf (create_game_features [exGameNoAway])) 2)) none).total_games) ∧
    (combineTeam 2 (some (mkHomeStat (completedOf (create_game_features [exGameNoAway])) 2)) none).win_percentage = (combineTeam 2 (some (mkHomeStat (completedOf (create_game_features [exGameNoAway])) 2)) none).total_wins /
      (if (combineTeam 2 (some (mkHomeStat (completedOf (create_game_features [exGameNoAway])) 2)) none).total_games = 0 then 1 else (combineTeam 2 (some (mkHomeStat (completedOf (create_game_features [exGameNoAway])) 2)) none).total_games) := by
  have heq : create_team_aggregations (create_game_features [exGameNoAway])
      = [(combineTeam 2 (some (mkHomeStat (completedOf (create_game_features [exGameNoAway])) 2)) none, 1)] := by
    show (List.mergeSort [(0, combineTeam 2 (some (mkHomeStat (completedOf (create_game_features [exGameNoAway])) 2)) none)]
        (fun x y => teamLE x.2 y.2)).enum.map (fun p => (p.2.2, p.1 + 1)) = _
    rw [List.mergeSort_singleton]
    rfl
  exact C4_weighted_average_and_guard.1 (create_game_features [exGameNoAway])
    (combineTeam 2 (some (mkHomeStat (completedOf (create_game_features [exGameNoAway])) 2)) none, 1) (by rw [heq]; exact List.mem_cons_self _ _)

/-- Claim C5 (amended): the event cleaner's output contains each game
identifier at most once, and every surviving row is the cleaned first
input occurrence of its identifier; the entity cleaner deduplicates by
the raw identifier cell BEFORE numeric coercion, so each of its
survivors is likewise the cleaned first occurrence of its raw
identifier — but distinct raw identifier cells that coerce to the same
integer can leave repeated `team_id` values in the cleaned output. -/
theorem C5_dedup_first_occurrence :
    (∀ l : List GameRow, ((clean_games_data l).map (fun r => r.game_id)).Nodup) ∧
    (∀ (l : List GameRow) (r : GameRow), r ∈ clean_games_data l →
      ∃ r0, l.find? (fun y => y.game_id == r.game_id) = some r0 ∧
        cleanGameRowSteps r0 = some r) ∧
    (∀ (t : TeamsTable) (k : TeamRow → RVal) (r : TeamRow),
      teamIdKey t = some k → r ∈ (clean_teams_data t).rows →
      ∃ r0, t.rows.find? (fun y => k y == k r0) = some r0 ∧
        cleanTeamRowSteps t.hasTeamID t.hasKey (t.hasKey || t.hasAbbreviation)
          t.hasName t.hasCity t.hasConference t.hasDivision
          (t.hasTeamID || t.hasTeam_id) r0 = some r) := by
  refine ⟨clean_games_ids_nodup, ?_, ?_⟩
  · intro l r hr
    obtain ⟨r0, hr0, hsteps⟩ := mem_clean_games l r hr
    have hgid : r.game_id = r0.game_id := cleanGameRowSteps_game_id r0 r hsteps
    rw [hgid]
    exact ⟨r0, find?_eq_of_mem_dedupBy (fun y => y.game_id) l r0 hr0, hsteps⟩
  · intro t k r hk hr
    obtain ⟨r0, hr0, hsteps⟩ := mem_clean_teams t r hr
    rw [show dedupTeams t = dedupBy k t.rows by unfold dedupTeams; rw [hk]] at hr0
    exact ⟨r0, find?_eq_of_mem_dedupBy k t.rows r0 hr0, hsteps⟩

/-- Counterexample to C5 as stated: two raw entity rows with the
distinct raw identifiers `1` and `"1"` both survive deduplication (it
runs before coercion) and both coerce to `team_id = 1`, so the cleaned
output contains the identifier value 1 twice. -/
theorem C5_counterexample :
    exTeamsDup.rows.map (fun r => r.teamID) = [RVal.num 1, RVal.numStr 1] ∧
    (clean_teams_data exTeamsDup).rows.map (fun r => r.team_id)
      = [RVal.num 1, RVal.num 1] ∧
    ¬ ((clean_teams_data exTeamsDup).rows.map (fun r => r.team_id)).Nodup := by
  decide

/-- Witness for C5's amended theorem: the survivor of a duplicated game
identifier is the cleaned first occurrence. -/
theorem C5_dedup_first_occurrence_witness :
    ∃ r0, [exGame, exGameDup].find? (fun y => y.game_id == exGame.game_id)
        = some r0 ∧ cleanGameRowSteps r0 = some exGame :=
  C5_dedup_first_occurrence.2.1 [exGame, exGameDup] exGame (by decide)

/-- Claim C6 (amended): the event cleaner is idempotent — re-cleaning
its output returns it unchanged; the entity cleaner is idempotent
whenever its output is non-empty and its cleaned identifier column has
pairwise-distinct values, but not in general: a second pass
deduplicates by the canonical integer identifier that the first pass's
coercion produced, and can drop further rows. -/
theorem C6_idempotence :
    (∀ l : List GameRow,
      clean_games_data (clean_games_data l) = clean_games_data l) ∧
    (∀ t : TeamsTable, (clean_teams_data t).rows ≠ [] →
      ((clean_teams_data t).rows.map (fun r => r.team_id)).Nodup →
      clean_teams_data (clean_teams_data t) = clean_teams_data t) :=
  ⟨clean_games_idem, clean_teams_idem⟩

/-- Counterexample to C6 as stated: cleaning the two-row table whose
raw identifiers `1` and `"1"` coerce to the same integer once yields
two rows; cleaning it twice yields one row, so the entity cleaner is
not idempotent. -/
theorem C6_counterexample :
    clean_teams_data (clean_teams_data exTeamsDup) ≠ clean_teams_data exTeamsDup ∧
    (clean_teams_data exTeamsDup).rows.length = 2 ∧
    (clean_teams_data (clean_teams_data exTeamsDup)).rows.length = 1 := by
  decide

/-- Witness for C6's amended theorem on concrete tables. -/
theorem C6_idempotence_witness :
    clean_games_data (clean_games_data [exGame, exGameBadWeek])
      = clean_games_data [exGame, exGameBadWeek] ∧
    clean_teams_data (clean_teams_data exTeamsOne) = clean_teams_data exTeamsOne :=
  ⟨C6_idempotence.1 [exGame, exGameBadWeek],
    C6_idempotence.2 exTeamsOne (by decide) (by decide)⟩

/-- Claim C7: the event cleaner applies the self-play filter and then
the week-range filter; every cleaned row fails both rejection
predicates, so its home and away identifiers differ whenever both are
numbers, and its week — whenever it is a number — lies in [1, 22]; in
particular a self-play event or a week-25 event never survives, and
filtering is a total function (no error path). -/
theorem C7_business_rule_filters :
    ∀ (l : List GameRow) (r : GameRow), r ∈ clean_games_data l →
      sameTeamRow r = false ∧ invalidWeekRow r = false ∧
      (∀ th ta : ℚ, r.home_team_id = .num th → r.away_team_id = .num ta →
        th ≠ ta) ∧
      (∀ w : ℚ, r.week = .num w → 1 ≤ w ∧ w ≤ 22) := by
  intro l r hr
  obtain ⟨r0, _, hsteps⟩ := mem_clean_games l r hr
  obtain ⟨_, _, _, _, _, _, _, _, _, hsame, hweek⟩ :=
    cleanGameRowSteps_spec r0 r hsteps
  refine ⟨hsame, hweek, ?_, ?_⟩
  · intro th ta hh ha heq
    unfold sameTeamRow at hsame
    rw [hh, ha] at hsame
    subst heq
    simp [RVal.eqNum] at hsame
  · intro w hw
    unfold invalidWeekRow at hweek
    rw [hw] at hweek
    simp only [Bool.or_eq_false_iff, decide_eq_false_iff_not, not_lt] at hweek
    exact ⟨hweek.1, hweek.2⟩

/-- Witness for C7 on a concrete cleaned row. -/
theorem C7_business_rule_filters_witness :
    sameTeamRow exGame = false ∧ invalidWeekRow exGame = false := by
  have h := C7_business_rule_filters [exGame] exGame (by decide)
  exact ⟨h.1, h.2.1⟩

/-- Claim C8: winner resolution is a three-way decision — for every
feature row with numeric scores, the winner is the home identifier when
the home score is strictly greater, the away identifier when the away
score is strictly greater, and the missing-value sentinel when the
scores are equal (ties never resolve to either team). -/
theorem C8_winner_three_way :
    ∀ (l : List GameRow) (r : FeatRow), r ∈ create_game_features l →
      ∀ x y : ℚ, r.home_score = .num x → r.away_score = .num y →
        ((y < x → r.winner_team_id = r.home_team_id) ∧
         (x < y → r.winner_team_id = r.away_team_id) ∧
         (x = y → r.winner_team_id = .null)) := by
  intro l r hr x y hx hy
  obtain ⟨g, _, rfl⟩ := mem_create_game_features l r hr
  have hx' : g.home_score = .num x := hx
  have hy' : g.away_score = .num y := hy
  refine ⟨?_, ?_, ?_⟩
  · intro hlt
    rw [featRow_winner, featRow_home_team_id, hx', hy']
    simp [RVal.gtNum, hlt]
  · intro hlt
    have hnlt : ¬ y < x := lt_asymm hlt
    rw [featRow_winner, featRow_away_team_id, hx', hy']
    simp [RVal.gtNum, hlt, hnlt]
  · intro heq
    subst heq
    rw [featRow_winner, hx', hy']
    simp [RVal.gtNum]

/-- Witness for C8: the concrete 24 : 24 tie resolves to the sentinel,
not to either team. -/
theorem C8_winner_three_way_witness :
    (featRow exGameTie).winner_team_id = RVal.null := by
  have h := C8_winner_three_way [exGameTie] (featRow exGameTie) (by decide)
  exact (h 24 24 rfl rfl).2.2 rfl

/-- Claim C9: a completed tie event adds one to the games-played count
of both participating teams (home side and away side) but changes no
team's win count — home and away wins count only strict score
majorities. -/
theorem C9_tie_counts_games_not_wins :
    ∀ (l : List FeatRow) (g : FeatRow) (th ta sc : ℚ),
      g.is_completed = true → g.home_team_id = .num th →
      g.away_team_id = .num ta → g.home_score = .num sc →
      g.away_score = .num sc → g.game_id ≠ .null →
      homeGamesOf (completedOf (l ++ [g])) th
        = homeGamesOf (completedOf l) th + 1 ∧
      awayGamesOf (completedOf (l ++ [g])) ta
        = awayGamesOf (completedOf l) ta + 1 ∧
      (∀ tq : ℚ, homeWinsOf (completedOf (l ++ [g])) tq
        = homeWinsOf (completedOf l) tq) ∧
      (∀ tq : ℚ, awayWinsOf (completedOf (l ++ [g])) tq
        = awayWinsOf (completedOf l) tq) := by
  intro l g th ta sc hc hh ha hhs hass hgid
  have hcomp : completedOf (l ++ [g]) = completedOf l ++ [g] := by
    unfold completedOf
    rw [List.filter_append]
    simp [hc]
  have hwin : g.home_score.gtNum g.away_score = false := by
    rw [hhs, hass]; simp [RVal.gtNum]
  have hwin2 : g.away_score.gtNum g.home_score = false := by
    rw [hhs, hass]; simp [RVal.gtNum]
  refine ⟨?_, ?_, ?_, ?_⟩
  · unfold homeGamesOf homeGroup countNonNullGameId
    rw [hcomp, List.filter_append, List.filter_append]
    have hk : [g].filter (fun r => r.home_team_id == RVal.num th) = [g] := by
      simp [hh]
    rw [hk]
    have hg : [g].filter (fun r => r.game_id != RVal.null) = [g] := by
      simp [hgid]
    rw [hg, List.length_append, List.length_singleton]
  · unfold awayGamesOf awayGroup countNonNullGameId
    rw [hcomp, List.filter_append, List.filter_append]
    have hk : [g].filter (fun r => r.away_team_id == RVal.num ta) = [g] := by
      simp [ha]
    rw [hk]
    have hg : [g].filter (fun r => r.game_id != RVal.null) = [g] := by
      simp [hgid]
    rw [hg, List.length_append, List.length_singleton]
  · intro tq
    unfold homeWinsOf homeGroup
    rw [hcomp, List.filter_append, List.filter_append]
    have hz : ([g].filter (fun r => r.home_team_id == RVal.num tq)).filter
        (fun r => r.home_score.gtNum r.away_score) = [] := by
      by_cases hk : (g.home_team_id == RVal.num tq) = true
      · simp [List.filter, hk, hwin]
      · simp [List.filter, hk]
    rw [hz, List.append_nil]
  · intro tq
    unfold awayWinsOf awayGroup
    rw [hcomp, List.filter_append, List.filter_append]
    have hz : ([g].filter (fun r => r.away_team_id == RVal.num tq)).filter
        (fun r => r.away_score.gtNum r.home_score) = [] := by
      by_cases hk : (g.away_team_id == RVal.num tq) = true
      · simp [List.filter, hk, hwin2]
      · simp [List.filter, hk]
    rw [hz, List.append_nil]

/-- Witness for C9 at the concrete 24 : 24 tie. -/
theorem C9_tie_counts_games_not_wins_witness :
    homeGamesOf (completedOf [featRow exGameTie]) 2
      = homeGamesOf (completedOf []) 2 + 1 ∧
    awayGamesOf (completedOf [featRow exGameTie]) 3
      = awayGamesOf (completedOf []) 3 + 1 ∧
    homeWinsOf (completedOf [featRow exGameTie]) 2
      = homeWinsOf (completedOf []) 2 ∧
    awayWinsOf (completedOf [featRow exGameTie]) 3
      = awayWinsOf (completedOf []) 3 := by
  have h := C9_tie_counts_games_not_wins [] (featRow exGameTie) 2 3 24
    (by decide) rfl rfl rfl rfl (by decide)
  exact ⟨h.1, h.2.1, h.2.2.1 2, h.2.2.2 3⟩

/-- Claim C10: an event with equal scores has margin_of_victory 0, and
margin 0 falls into the lowest closeness bucket — `include_lowest`
makes the first bin's lower boundary inclusive — so its
`game_closeness` is the label `Very Close (1-3)` even though the
label's range starts at 1. -/
theorem C10_zero_margin_very_close :
    ∀ (l : List GameRow) (r : FeatRow), r ∈ create_game_features l →
      ∀ x : ℚ, r.home_score = .num x → r.away_score = .num x →
        r.margin_of_victory = .num 0 ∧
        r.game_closeness = some "Very Close (1-3)" := by
  intro l r hr x hx hy
  obtain ⟨g, _, rfl⟩ := mem_create_game_features l r hr
  have hx' : g.home_score = .num x := hx
  have hy' : g.away_score = .num x := hy
  have hmov : (featRow g).margin_of_victory = .num 0 := by
    show (g.home_score.subNum g.away_score).absNum = .num 0
    rw [hx', hy']
    show RVal.absNum (.num (x - x)) = .num 0
    norm_num [RVal.absNum]
  refine ⟨hmov, ?_⟩
  rw [featRow_closeness]
  rw [show (g.home_score.subNum g.away_score).absNum = RVal.num 0 from hmov]
  norm_num [closenessCut]

/-- Witness for C10 at the concrete 24 : 24 tie. -/
theorem C10_zero_margin_very_close_witness :
    (featRow exGameTie).margin_of_victory = RVal.num 0 ∧
    (featRow exGameTie).game_closeness = some "Very Close (1-3)" := by
  have h := C10_zero_margin_very_close [exGameTie] (featRow exGameTie) (by decide)
  exact h 24 rfl rfl
